import Mathlib

/-!
# platform/qemu.go : provisioning and teardown of QEMU machines

A shallow embedding of `src/platform/qemu.go`.

* Every call that leaves the file (the local cluster fabric, the SSH agent,
  `os`, `io`, `os/exec`, `uuid`) is a field of `Env`.  Its result may depend on
  the whole history of earlier external calls, so quantifying over `Env`
  quantifies over every outcome the collaborators can produce, including
  different answers to repeated calls.
* The effects of a run are recorded, oldest first, in `World.trace`.
* Go slices of machines live in `World.heap`: a slice is a pointer to a backing
  array together with a length and a capacity, so that aliasing between
  `qc.machines` and the slices handed out by `Machines` can be stated.
* A run either returns or panics (`Run`); a call that blocks is taken to
  return eventually.
* Two library functions are modelled from their documentation, because what
  `SSH` returns is stated in their terms: `bytes.TrimSpace` (`TrimSpace`) and
  `ssh.Session.Output` (`sessionOutput`, the standard output of a `RemoteRun`).
-/

namespace Qemu

/-! ## Values -/

/-- Go `[]byte` when used as an immutable value. -/
abbrev Bytes := List UInt8

/-- The conversion `[]byte(s)` of a Go string: its UTF-8 bytes. -/
def bytesOf (s : String) : Bytes :=
  s.toUTF8.data.toList

/-- The literal `[]byte("ID=coreos")`. -/
def idCoreos : Bytes :=
  bytesOf "ID=coreos"

/-! ## The library function `bytes.TrimSpace`

Its documentation: it returns a subslice of its argument by slicing off all
leading and trailing white space, as defined by Unicode.  The library decodes
one rune at a time, from the front and then from the back, and stops at the
first rune that `unicode.IsSpace` rejects.  A rune is white space exactly when
the bytes at that end are the UTF-8 encoding of a white space code point: an
invalid or truncated encoding decodes to the replacement rune, which is not
white space, and the decoder accepts no second encoding of a code point. -/

/-- Go `unicode.IsSpace` on a code point. -/
def isSpace (r : Nat) : Bool :=
  if r ≤ 0xFF then
    r == 0x09 || r == 0x0A || r == 0x0B || r == 0x0C || r == 0x0D || r == 0x20 ||
      r == 0x85 || r == 0xA0
  else
    r == 0x1680 || (0x2000 ≤ r && r ≤ 0x200A) || r == 0x2028 || r == 0x2029 ||
      r == 0x202F || r == 0x205F || r == 0x3000

/-- The code points that `isSpace` accepts. -/
def spaceRunes : List Nat :=
  [0x09, 0x0A, 0x0B, 0x0C, 0x0D, 0x20, 0x85, 0xA0, 0x1680,
   0x2000, 0x2001, 0x2002, 0x2003, 0x2004, 0x2005, 0x2006, 0x2007, 0x2008, 0x2009, 0x200A,
   0x2028, 0x2029, 0x202F, 0x205F, 0x3000]

/-- The UTF-8 encodings of the white space code points. -/
def spaceEncodings : List Bytes :=
  spaceRunes.map fun r => String.utf8EncodeChar (Char.ofNat r)

/-- The bytes `bs` begin with the bytes `e`. -/
def startsWith : Bytes → Bytes → Bool
  | _, [] => true
  | [], _ :: _ => false
  | b :: bs, c :: e => b == c && startsWith bs e

/-- The width of the entry of the table that the bytes begin with, if any. -/
def leadingWidth (table : List Bytes) (bs : Bytes) : Option Nat :=
  (table.find? (startsWith bs)).map List.length

/-- Drop entries of the table from the front, at most n times, until the bytes
begin with none of them. -/
def stripN (table : List Bytes) : Nat → Bytes → Bytes
  | 0, bs => bs
  | n + 1, bs =>
    match leadingWidth table bs with
    | none => bs
    | some k => stripN table n (bs.drop k)

/-- Slice off the leading white space. -/
def TrimLeft (bs : Bytes) : Bytes :=
  stripN spaceEncodings bs.length bs

/-- Slice off the trailing white space. -/
def TrimRight (bs : Bytes) : Bytes :=
  (stripN (spaceEncodings.map List.reverse) bs.length bs.reverse).reverse

/-- Go `bytes.TrimSpace`. -/
def TrimSpace (bs : Bytes) : Bytes :=
  TrimRight (TrimLeft bs)

/-- The bytes begin with the encoding of a white space code point. -/
def hasLeadingSpace (bs : Bytes) : Bool :=
  spaceEncodings.any (startsWith bs)

/-- The bytes end with the encoding of a white space code point. -/
def hasTrailingSpace (bs : Bytes) : Bool :=
  spaceEncodings.any fun e => startsWith bs.reverse e.reverse

/-- The bytes are a concatenation of entries of the table. -/
inductive Concat (table : List Bytes) : Bytes → Prop where
  | nil : Concat table []
  | cons (e rest : Bytes) : e ∈ table → Concat table rest → Concat table (e ++ rest)

/-- The bytes are white space only: encodings of white space code points, one
after the other. -/
def WhiteSpace (bs : Bytes) : Prop :=
  Concat spaceEncodings bs

/-- A non-nil Go `error` value.  `ext` are the errors produced by collaborators,
`errorf f a` is the value of `fmt.Errorf(f, a)`. -/
inductive Error where
  | ext (code : Nat)
  | errorf (format : String) (arg : Bytes)
  deriving DecidableEq, Repr

/-- An open `*os.File`, identified by its descriptor object. -/
structure File where
  fd : Nat
  deriving DecidableEq, Repr

/-- A `*local.TunTap`: a tap device with its embedded file. -/
structure TunTap where
  File : File
  Name : String
  deriving DecidableEq, Repr

/-- A `net.IPNet`. -/
structure IPNet where
  IP : Bytes
  Mask : Bytes
  deriving DecidableEq, Repr

/-- A `*local.Interface` (never nil): hardware address and DHCPv4 leases, as
they are when the machine reads them. -/
structure Interface where
  HardwareAddr : Bytes
  DHCPv4 : List IPNet
  deriving DecidableEq, Repr

/-- An `*os.Process`. -/
structure Process where
  pid : Nat
  deriving DecidableEq, Repr

/-- The writers the file assigns to `Stderr` fields. -/
inductive Writer where
  | osStderr
  deriving DecidableEq, Repr

/-- An `*exec.Cmd`: `Process` is nil until the command has been started. -/
structure Cmd where
  name : String
  args : List String
  Stderr : Option Writer
  ExtraFiles : List File
  Process : Option Process
  deriving DecidableEq, Repr

/-- An `*ssh.Client`. -/
structure Client where
  id : Nat
  deriving DecidableEq, Repr

/-- An `*ssh.Session`. -/
structure Session where
  id : Nat
  Stderr : Option Writer
  deriving DecidableEq, Repr

/-! ## The output of a remote command -/

/-- The two output streams of a remote command. -/
inductive Stream where
  | stdout
  | stderr
  deriving DecidableEq, Repr

/-- What a remote command does: its writes to the two streams, in order, and
the error of the run, if any. -/
structure RemoteRun where
  writes : List (Stream × Bytes)
  err : Option Error
  deriving DecidableEq, Repr

/-- The bytes written to the standard output. -/
def RemoteRun.stdout (r : RemoteRun) : Bytes :=
  (r.writes.filter fun x => x.1 == Stream.stdout).flatMap fun x => x.2

/-- The bytes written to the standard error. -/
def RemoteRun.stderr (r : RemoteRun) : Bytes :=
  (r.writes.filter fun x => x.1 == Stream.stderr).flatMap fun x => x.2

/-- The combined output: the bytes written to either stream, in order. -/
def RemoteRun.combined (r : RemoteRun) : Bytes :=
  r.writes.flatMap fun x => x.2

/-- A `*qemuMachine`.  The back pointer `qc` is the cluster the operations are
run on and is passed explicitly. -/
structure qemuMachine where
  id : String
  qemu : Option Cmd
  netif : Interface
  deriving DecidableEq, Repr

/-- Reasons for a Go run-time panic that the file can raise. -/
inductive Panic where
  | indexOutOfRange (index length : Nat)
  | nilDereference
  deriving DecidableEq, Repr

/-- Outcome of running a Go function: it returns a value or it panics. -/
inductive Run (α : Type) where
  | returned (a : α)
  | panicked (p : Panic)
  deriving DecidableEq, Repr

/-! ## Effects -/

/-- The external calls a run performs. -/
inductive Event where
  | newLocalCluster
  | getInterface (bridge : String)
  | osOpen (name : String)
  | tempFile (dir : String)
  | ioCopy (dst src : File)
  | fileClose (f : File)
  | newTap (bridge : String)
  | tapClose (t : TunTap)
  | commandStart (cmd : Cmd)
  | newClient (addr : String)
  | clientClose (c : Client)
  | newSession (c : Client)
  | sessionClose (s : Session)
  | sessionOutput (s : Session) (cmd : String)
  | processKill (p : Process)
  | cmdWait (c : Cmd)
  | localDestroy
  deriving DecidableEq, Repr

/-! ## Slices -/

/-- A Go slice header: pointer to the backing array (none for a nil slice),
length and capacity. -/
structure Slice where
  ptr : Option Nat
  len : Nat
  cap : Nat
  deriving DecidableEq, Repr

/-- Backing arrays of machine slices, by address.  An element is a pointer to a
machine or nil. -/
abbrev Heap := List (List (Option qemuMachine))

/-- The state threaded through a run: effects so far and slice memory. -/
structure World where
  trace : List Event
  heap : Heap
  deriving DecidableEq, Repr

/-- Record one external call. -/
def World.emit (w : World) (e : Event) : World :=
  { w with trace := w.trace ++ [e] }

/-- The elements `s[0], ..., s[len-1]` of a slice. -/
def Slice.read (h : Heap) (s : Slice) : List (Option qemuMachine) :=
  match s.ptr with
  | none => []
  | some p => (h.getD p []).take s.len

/-- The assignment `s[i] = x`, for an index within the slice; outside of it
nothing is stored. -/
def Slice.write (h : Heap) (s : Slice) (i : Nat) (x : Option qemuMachine) : Heap :=
  match s.ptr with
  | none => h
  | some p => if i < s.len then h.set p ((h.getD p []).set i x) else h

/-- The slice header is consistent with the heap. -/
def Slice.WF (h : Heap) (s : Slice) : Prop :=
  match s.ptr with
  | none => s.len = 0 ∧ s.cap = 0
  | some p => p < h.length ∧ s.len ≤ s.cap ∧ (h.getD p []).length = s.cap

instance (h : Heap) (s : Slice) : Decidable (s.WF h) := by
  unfold Slice.WF
  cases s.ptr <;> infer_instance

/-- The call `make([]Machine, n)`: a fresh array of n nil elements. -/
def goMake (h : Heap) (n : Nat) : Slice × Heap :=
  ({ ptr := some h.length, len := n, cap := n }, h ++ [List.replicate n none])

/-! ## Collaborators -/

/-- Everything `qemu.go` calls but does not define.  The first argument of an
effectful call is the history of external calls made so far. -/
structure Env where
  /-- Go `net.HardwareAddr.String`. -/
  hardwareAddrString : Bytes → String
  /-- Go `net.IP.String`. -/
  ipString : Bytes → String
  /-- Capacity picked by the runtime when `append` has to grow a slice of the
  given capacity to hold the given number of elements. -/
  growCap : Nat → Nat → Nat
  /-- The flag `qemu.image`. -/
  qemuImage : String
  /-- The field `qc.ConfigDrive.Directory`. -/
  configDirectory : String
  /-- The call `local.NewLocalCluster()`: its error, if any. -/
  newLocalCluster : List Event → Option Error
  /-- The call `uuid.New()`. -/
  uuidNew : List Event → String
  /-- The call `qc.Dnsmasq.GetInterface(bridge)`. -/
  getInterface : List Event → String → Interface
  /-- The call `os.Open(name)`. -/
  osOpen : List Event → String → Except Error File
  /-- The call `util.TempFile(dir)`. -/
  tempFile : List Event → String → Except Error File
  /-- The call `io.Copy(dst, src)`: its error, if any. -/
  ioCopy : List Event → File → File → Option Error
  /-- The call `qc.NewTap(bridge)`. -/
  newTap : List Event → String → Except Error TunTap
  /-- The call `qc.CommandStart(cmd)`: the process of the started command, or
  the error. -/
  commandStart : List Event → Cmd → Except Error Process
  /-- The call `qc.SSHAgent.NewClient(addr)`. -/
  newClient : List Event → String → Except Error Client
  /-- The call `client.NewSession()`. -/
  newSession : List Event → Client → Except Error Session
  /-- What the remote command does when `session.Output(cmd)` runs it. -/
  sessionRun : List Event → Session → String → RemoteRun
  /-- The call `cmd.Process.Kill()`: its error, if any. -/
  processKill : List Event → Process → Option Error
  /-- The call `cmd.Wait()`: its error, if any. -/
  cmdWait : List Event → Cmd → Option Error
  /-- The call `qc.LocalCluster.Destroy()`: its error, if any. -/
  localDestroy : List Event → Option Error

/-- The built-in `append(s, x)`: in place when the capacity allows, otherwise
into a fresh array that is large enough. -/
def goAppend (env : Env) (h : Heap) (s : Slice) (x : Option qemuMachine) : Slice × Heap :=
  match s.ptr with
  | some p =>
    if s.len < s.cap then
      ({ s with len := s.len + 1 }, h.set p ((h.getD p []).set s.len x))
    else
      let cap := max (env.growCap s.cap (s.len + 1)) (s.len + 1)
      ({ ptr := some h.length, len := s.len + 1, cap := cap },
        h ++ [s.read h ++ [x] ++ List.replicate (cap - (s.len + 1)) none])
  | none =>
    let cap := max (env.growCap s.cap (s.len + 1)) (s.len + 1)
    ({ ptr := some h.length, len := s.len + 1, cap := cap },
      h ++ [s.read h ++ [x] ++ List.replicate (cap - (s.len + 1)) none])

/-! ## External calls as world transformers -/

def newLocalCluster (env : Env) (w : World) : Option Error × World :=
  (env.newLocalCluster w.trace, w.emit .newLocalCluster)

def getInterface (env : Env) (bridge : String) (w : World) : Interface × World :=
  (env.getInterface w.trace bridge, w.emit (.getInterface bridge))

def osOpen (env : Env) (name : String) (w : World) : Except Error File × World :=
  (env.osOpen w.trace name, w.emit (.osOpen name))

def tempFile (env : Env) (dir : String) (w : World) : Except Error File × World :=
  (env.tempFile w.trace dir, w.emit (.tempFile dir))

def ioCopy (env : Env) (dst src : File) (w : World) : Option Error × World :=
  (env.ioCopy w.trace dst src, w.emit (.ioCopy dst src))

def fileClose (f : File) (w : World) : World :=
  w.emit (.fileClose f)

def newTap (env : Env) (bridge : String) (w : World) : Except Error TunTap × World :=
  (env.newTap w.trace bridge, w.emit (.newTap bridge))

def tapClose (t : TunTap) (w : World) : World :=
  w.emit (.tapClose t)

def commandStart (env : Env) (cmd : Cmd) (w : World) : Except Error Process × World :=
  (env.commandStart w.trace cmd, w.emit (.commandStart cmd))

def newClient (env : Env) (addr : String) (w : World) : Except Error Client × World :=
  (env.newClient w.trace addr, w.emit (.newClient addr))

def clientClose (c : Client) (w : World) : World :=
  w.emit (.clientClose c)

def newSession (env : Env) (c : Client) (w : World) : Except Error Session × World :=
  (env.newSession w.trace c, w.emit (.newSession c))

def sessionClose (s : Session) (w : World) : World :=
  w.emit (.sessionClose s)

/-- The library method `ssh.Session.Output`, from its documentation: it runs
the command on the remote host and returns its standard output.  The standard
error of the command is not part of the result; it goes to the writer in the
`Stderr` field of the session. -/
def sessionOutput (env : Env) (s : Session) (cmd : String) (w : World) :
    (Bytes × Option Error) × World :=
  (((env.sessionRun w.trace s cmd).stdout, (env.sessionRun w.trace s cmd).err),
    w.emit (.sessionOutput s cmd))

def processKill (env : Env) (p : Process) (w : World) : Option Error × World :=
  (env.processKill w.trace p, w.emit (.processKill p))

def cmdWait (env : Env) (c : Cmd) (w : World) : Option Error × World :=
  (env.cmdWait w.trace c, w.emit (.cmdWait c))

def localDestroy (env : Env) (w : World) : Option Error × World :=
  (env.localDestroy w.trace, w.emit .localDestroy)

/-! ## The program -/

/-- A `*qemuCluster`: the embedded local cluster is reached through `Env`. -/
structure qemuCluster where
  machines : Slice
  deriving DecidableEq, Repr

/-- The value `&qemuCluster{LocalCluster: lc}`: the machine slice is nil. -/
def freshCluster : qemuCluster :=
  { machines := { ptr := none, len := 0, cap := 0 } }

/-- The function `NewQemuCluster`. -/
def NewQemuCluster (env : Env) (w : World) : Except Error qemuCluster × World :=
  match newLocalCluster env w with
  | (some err, w) => (.error err, w)
  | (none, w) => (.ok freshCluster, w)

/-- The function `setupDisk`: copy the base image to a new temporary file. -/
def setupDisk (env : Env) (w : World) : Except Error File × World :=
  match osOpen env env.qemuImage w with
  | (.error err, w) => (.error err, w)
  | (.ok srcFile, w) =>
    -- defer srcFile.Close()
    let (r, w) :=
      match tempFile env "" w with
      | (.error err, w) => (Except.error err, w)
      | (.ok dstFile, w) =>
        match ioCopy env dstFile srcFile w with
        | (some err, w) => (Except.error err, fileClose dstFile w)
        | (none, w) => (Except.ok dstFile, w)
    (r, fileClose srcFile w)

/-- The method `qemuMachine.ID`. -/
def qemuMachine.ID (m : qemuMachine) : String :=
  m.id

/-- The method `qemuMachine.IP`: indexing `DHCPv4[0]` panics on an empty list. -/
def qemuMachine.IP (env : Env) (m : qemuMachine) : Run String :=
  match m.netif.DHCPv4[0]? with
  | none => .panicked (.indexOutOfRange 0 m.netif.DHCPv4.length)
  | some lease => .returned (env.ipString lease.IP)

/-- The method `qemuMachine.SSH`. -/
def qemuMachine.SSH (env : Env) (qm : qemuMachine) (cmd : String) (w : World) :
    Run (Bytes × Option Error) × World :=
  match qm.IP env with
  | .panicked p => (.panicked p, w)
  | .returned ip =>
    match newClient env ip w with
    | (.error err, w) => (.returned ([], some err), w)
    | (.ok client, w) =>
      -- defer client.Close()
      let (r, w) :=
        match newSession env client w with
        | (.error err, w) => (Run.returned (([] : Bytes), some err), w)
        | (.ok session, w) =>
          -- defer session.Close()
          let session := { session with Stderr := some Writer.osStderr }
          let ((out, err), w) := sessionOutput env session cmd w
          let out := TrimSpace out
          (Run.returned (out, err), sessionClose session w)
      (r, clientClose client w)

/-- The method `qemuMachine.Destroy`. -/
def qemuMachine.Destroy (env : Env) (qm : qemuMachine) (w : World) :
    Run (Option Error) × World :=
  match qm.qemu with
  | none => (.panicked .nilDereference, w)
  | some cmd =>
    match cmd.Process with
    | none => (.panicked .nilDereference, w)
    | some proc =>
      let (_, w) := processKill env proc w
      let (_, w) := cmdWait env cmd w
      (.returned none, w)

/-- The command built at lines 93 to 110 of `NewMachine`. -/
def NewMachine.command (id qmMac qmCfg : String) (disk : File) (tap : TunTap) : Cmd :=
  let qemu : Cmd :=
    { name := "qemu-system-x86_64"
      args := [
        "-machine", "accel=kvm",
        "-cpu", "host",
        "-smp", "2",
        "-m", "1024",
        "-uuid", id,
        "-display", "none",
        "-add-fd", "fd=3,set=1",
        "-drive", "file=/dev/fdset/1,media=disk,if=virtio",
        "-netdev", "tap,id=tap,fd=4",
        "-device", "virtio-net,netdev=tap,mac=" ++ qmMac,
        "-fsdev", "local,id=cfg,security_model=none,readonly,path=" ++ qmCfg,
        "-device", "virtio-9p-pci,fsdev=cfg,mount_tag=config-2"]
      Stderr := none
      ExtraFiles := []
      Process := none }
  let qemu := { qemu with Stderr := some Writer.osStderr }
  let qemu := { qemu with ExtraFiles := qemu.ExtraFiles ++ [disk] }
  let qemu := { qemu with ExtraFiles := qemu.ExtraFiles ++ [tap.File] }
  qemu

/-- The part of `NewMachine` after the command is built (lines 112 to 129):
start the process, verify the guest, register the machine. -/
def NewMachine.launch (env : Env) (qc : qemuCluster) (qm : qemuMachine) (cmd : Cmd)
    (w : World) : Run (Option qemuMachine × Option Error) × qemuCluster × World :=
  match commandStart env cmd w with
  | (.error err, w) => (.returned (none, some err), qc, w)
  | (.ok proc, w) =>
    let qm := { qm with qemu := some { cmd with Process := some proc } }
    match qm.SSH env "grep ^ID= /etc/os-release" w with
    | (.panicked p, w) => (.panicked p, qc, w)
    | (.returned (_, some err), w) =>
      match qm.Destroy env w with
      | (.panicked p, w) => (.panicked p, qc, w)
      | (.returned _, w) => (.returned (none, some err), qc, w)
    | (.returned (out, none), w) =>
      if out ≠ idCoreos then
        match qm.Destroy env w with
        | (.panicked p, w) => (.panicked p, qc, w)
        | (.returned _, w) =>
          (.returned (none, some (.errorf "Unexpected SSH output: %s" out)), qc, w)
      else
        let (machines, heap) := goAppend env w.heap qc.machines (some qm)
        (.returned (some qm, none), { qc with machines := machines }, { w with heap := heap })

/-- The method `qemuCluster.NewMachine`.  A deferred call runs when the rest
of the function has finished, whether it returned or panicked. -/
def qemuCluster.NewMachine (env : Env) (qc : qemuCluster) (w : World) :
    Run (Option qemuMachine × Option Error) × qemuCluster × World :=
  let id := env.uuidNew w.trace
  let (netif, w) := getInterface env "br0" w
  let qm : qemuMachine := { id := id, qemu := none, netif := netif }
  match setupDisk env w with
  | (.error err, w) => (.returned (none, some err), qc, w)
  | (.ok disk, w) =>
    -- defer disk.Close()
    let (r, qc, w) :=
      match newTap env "br0" w with
      | (.error err, w) => (Run.returned (none, some err), qc, w)
      | (.ok tap, w) =>
        -- defer tap.Close()
        let qmMac := env.hardwareAddrString qm.netif.HardwareAddr
        let qmCfg := env.configDirectory
        let cmd := NewMachine.command qm.id qmMac qmCfg disk tap
        let (r, qc, w) := NewMachine.launch env qc qm cmd w
        (r, qc, tapClose tap w)
    (r, qc, fileClose disk w)

/-- The element `s[i]`, for an index within the slice; nil stands for a read
outside the backing array. -/
def Slice.index (h : Heap) (s : Slice) (i : Nat) : Option qemuMachine :=
  match s.ptr with
  | none => none
  | some p => ((h.getD p []).getD i none)

/-- The method `qemuCluster.Machines`. -/
def qemuCluster.Machines (qc : qemuCluster) (w : World) : Slice × World :=
  let (machines, heap) := goMake w.heap qc.machines.len
  -- for i, m := range qc.machines { machines[i] = m }
  let heap := (List.range qc.machines.len).foldl
    (fun heap i => machines.write heap i (qc.machines.index heap i)) heap
  (machines, { w with heap := heap })

/-- The loop of `qemuCluster.Destroy` over the elements of `qc.machines`. -/
def destroyEach (env : Env) : List (Option qemuMachine) → World → Run Unit × World
  | [], w => (.returned (), w)
  | none :: _, w => (.panicked .nilDereference, w)
  | some qm :: rest, w =>
    match qm.Destroy env w with
    | (.panicked p, w) => (.panicked p, w)
    | (.returned _, w) => destroyEach env rest w

/-- The method `qemuCluster.Destroy`. -/
def qemuCluster.Destroy (env : Env) (qc : qemuCluster) (w : World) :
    Run (Option Error) × World :=
  match destroyEach env (qc.machines.read w.heap) w with
  | (.panicked p, w) => (.panicked p, w)
  | (.returned _, w) =>
    let (err, w) := localDestroy env w
    (.returned err, w)

/-! ## Stages of `NewMachine`

Names for the intermediate values of a run of `NewMachine`, used to state
which stage a run reached. -/

/-- The machine value built at line 73. -/
def NewMachine.qm (env : Env) (w : World) : qemuMachine :=
  { id := env.uuidNew w.trace, qemu := none, netif := env.getInterface w.trace "br0" }

/-- The world in which `setupDisk` is called. -/
def NewMachine.wDisk (w : World) : World :=
  w.emit (.getInterface "br0")

/-- The world in which `NewTap` is called. -/
def NewMachine.wTap (env : Env) (w : World) : World :=
  (setupDisk env (NewMachine.wDisk w)).2

/-- The world in which `CommandStart` is called. -/
def NewMachine.wStart (env : Env) (w : World) : World :=
  (NewMachine.wTap env w).emit (.newTap "br0")

/-- The command handed to `CommandStart` for the given disk and tap. -/
def NewMachine.cmd (env : Env) (w : World) (disk : File) (tap : TunTap) : Cmd :=
  NewMachine.command (NewMachine.qm env w).id
    (env.hardwareAddrString (NewMachine.qm env w).netif.HardwareAddr)
    env.configDirectory disk tap

/-- The world in which the verification `SSH` call is made. -/
def NewMachine.wSSH (env : Env) (w : World) (disk : File) (tap : TunTap) : World :=
  (NewMachine.wStart env w).emit (.commandStart (NewMachine.cmd env w disk tap))

/-- The machine once its process `proc` has been started. -/
def NewMachine.started (env : Env) (w : World) (disk : File) (tap : TunTap)
    (proc : Process) : qemuMachine :=
  { NewMachine.qm env w with
    qemu := some { NewMachine.cmd env w disk tap with Process := some proc } }

/-- The fixed diagnostic command of the readiness check. -/
def NewMachine.probe : String := "grep ^ID= /etc/os-release"

/-- The verification call of a run whose process `proc` was started: its
outcome and the world it leaves. -/
def NewMachine.sshRun (env : Env) (w : World) (disk : File) (tap : TunTap)
    (proc : Process) : Run (Bytes × Option Error) × World :=
  qemuMachine.SSH env (NewMachine.started env w disk tap proc) NewMachine.probe
    (NewMachine.wSSH env w disk tap)

/-- The world after the started process has been destroyed again. -/
def NewMachine.wDestroyed (env : Env) (w : World) (disk : File) (tap : TunTap)
    (proc : Process) : World :=
  ((NewMachine.sshRun env w disk tap proc).2.emit (.processKill proc)).emit
    (.cmdWait { NewMachine.cmd env w disk tap with Process := some proc })

/-! ## Kinds of events -/

/-- Events of disk staging. -/
def Event.isStaging : Event → Bool
  | .osOpen _ => true
  | .tempFile _ => true
  | .ioCopy _ _ => true
  | .fileClose _ => true
  | _ => false

/-- Events of a remote session. -/
def Event.isRemote : Event → Bool
  | .newClient _ => true
  | .clientClose _ => true
  | .newSession _ => true
  | .sessionClose _ => true
  | .sessionOutput _ _ => true
  | _ => false

/-- Events of the readiness check and of destroying the process. -/
def Event.isVerification : Event → Bool
  | .processKill _ => true
  | .cmdWait _ => true
  | e => e.isRemote

/-! ## Started machines -/

/-- The machine has a command whose process exists. -/
def qemuMachine.isStarted (qm : qemuMachine) : Bool :=
  match qm.qemu with
  | none => false
  | some cmd => cmd.Process.isSome

/-- Every element is a machine (not nil) that has been started. -/
def allStarted (ms : List (Option qemuMachine)) : Bool :=
  ms.all fun m =>
    match m with
    | none => false
    | some qm => qm.isStarted

/-- The kill and the wait of one machine. -/
def qemuMachine.killWait (qm : qemuMachine) : List Event :=
  match qm.qemu with
  | none => []
  | some cmd =>
    match cmd.Process with
    | none => []
    | some proc => [.processKill proc, .cmdWait cmd]

/-- Kill then wait for the first machine, then for the second, and so on. -/
def teardownEvents : List (Option qemuMachine) → List Event
  | [] => []
  | none :: rest => teardownEvents rest
  | some qm :: rest => qm.killWait ++ teardownEvents rest

/-! ## Reachable states -/

/-- The states of a cluster that the operations of the file produce, starting
from `NewQemuCluster` in any world. -/
inductive Reachable : qemuCluster → World → Prop where
  | fresh (env : Env) (w : World) (qc : qemuCluster) :
      (NewQemuCluster env w).1 = .ok qc → Reachable qc (NewQemuCluster env w).2
  | newMachine (env : Env) (qc : qemuCluster) (w : World) :
      Reachable qc w → Reachable (qc.NewMachine env w).2.1 (qc.NewMachine env w).2.2
  | machines (qc : qemuCluster) (w : World) :
      Reachable qc w → Reachable qc (qc.Machines w).2
  | destroy (env : Env) (qc : qemuCluster) (w : World) :
      Reachable qc w → Reachable qc (qc.Destroy env w).2
  | machineDestroy (env : Env) (qc : qemuCluster) (w : World) (qm : qemuMachine) :
      Reachable qc w → Reachable qc (qm.Destroy env w).2
  | machineSSH (env : Env) (qc : qemuCluster) (w : World) (qm : qemuMachine)
      (cmd : String) :
      Reachable qc w → Reachable qc (qm.SSH env cmd w).2

/-! ## Descriptors and handles -/

/-- A machine whose interface has no DHCPv4 lease. -/
def leaselessMachine : qemuMachine :=
  { id := "6ba7b812-9dad-11d1-80b4-00c04fd430c8"
    qemu := none
    netif := { HardwareAddr := [82, 84, 0, 18, 52, 86], DHCPv4 := [] } }


/-- The descriptor table of a started command: entry i of `ExtraFiles` becomes
descriptor 3 + i of the child (documentation of `os/exec`). -/
def Cmd.fileAtFd (c : Cmd) (fd : Nat) : Option File :=
  if fd < 3 then none else c.ExtraFiles[fd - 3]?

/-- The wording of the specification about the host-side handles, read on a
trace: the disk and the tap are closed before the first event of a remote
session. -/
def closedBeforeSession (tr : List Event) (disk : File) (tap : TunTap) : Bool :=
  (tr.takeWhile fun e => !e.isRemote).contains (.fileClose disk) &&
  (tr.takeWhile fun e => !e.isRemote).contains (.tapClose tap)

/-! ## A sample environment

A guest that boots and identifies itself as `ID=coreos`, with every host
call succeeding; the variations below change one collaborator at a time. -/

/-- The sample environment. -/
def sampleEnv : Env :=
  { hardwareAddrString := fun _ => "52:54:00:12:34:56"
    ipString := fun _ => "10.0.0.2"
    growCap := fun cap need => max (2 * cap) need
    qemuImage := "coreos-v1.img"
    configDirectory := "/var/tmp/config"
    newLocalCluster := fun _ => none
    uuidNew := fun tr =>
      if tr.isEmpty then "6ba7b810-9dad-11d1-80b4-00c04fd430c8"
      else "6ba7b811-9dad-11d1-80b4-00c04fd430c8"
    getInterface := fun _ _ =>
      { HardwareAddr := [82, 84, 0, 18, 52, 86]
        DHCPv4 := [{ IP := [10, 0, 0, 2], Mask := [255, 255, 255, 0] }] }
    osOpen := fun _ _ => .ok { fd := 10 }
    tempFile := fun _ _ => .ok { fd := 11 }
    ioCopy := fun _ _ _ => none
    newTap := fun _ _ => .ok { File := { fd := 12 }, Name := "tap0" }
    commandStart := fun tr _ => .ok { pid := 4000 + tr.length }
    newClient := fun _ _ => .ok { id := 1 }
    newSession := fun _ _ => .ok { id := 1, Stderr := none }
    sessionRun := fun _ _ _ =>
      { writes := [(.stdout, bytesOf "ID=coreos\n")], err := none }
    processKill := fun _ _ => none
    cmdWait := fun _ _ => none
    localDestroy := fun _ => none }

/-- The world before anything has happened. -/
def World.init : World :=
  { trace := [], heap := [] }

/-- The base image cannot be opened. -/
def missingImageEnv : Env :=
  { sampleEnv with osOpen := fun _ _ => .error (.ext 2) }

/-- The fabric cannot create a tap. -/
def noTapEnv : Env :=
  { sampleEnv with newTap := fun _ _ => .error (.ext 16) }

/-- The hypervisor cannot be started. -/
def noStartEnv : Env :=
  { sampleEnv with commandStart := fun _ _ => .error (.ext 8) }

/-- The guest never becomes reachable. -/
def unreachableEnv : Env :=
  { sampleEnv with newClient := fun _ _ => .error (.ext 111) }

/-- The guest identifies itself as `ID=othernix`. -/
def otherGuestEnv : Env :=
  { sampleEnv with
    sessionRun := fun _ _ _ =>
      { writes := [(.stdout, bytesOf "ID=othernix\n")], err := none } }

/-- The interface handed out by the fabric has no DHCPv4 lease. -/
def noLeaseEnv : Env :=
  { sampleEnv with
    getInterface := fun _ _ => { HardwareAddr := [82, 84, 0, 18, 52, 86], DHCPv4 := [] } }

/-- The remote command writes a warning to its standard error before the
identifier on its standard output. -/
def noisyEnv : Env :=
  { sampleEnv with
    sessionRun := fun _ _ _ =>
      { writes := [(.stderr, bytesOf "grep: warning\n"), (.stdout, bytesOf "ID=coreos\n")],
        err := none } }

/-- Teardown in which every kill, every wait and the release of the fabric
report an error. -/
def stubbornEnv : Env :=
  { sampleEnv with
    processKill := fun _ _ => some (.ext 3)
    cmdWait := fun _ _ => some (.ext 10)
    localDestroy := fun _ => some (.ext 5) }

/-- Processes that can be killed and waited for once: a later kill of the same
process reports that it has finished, a later wait that it was waited for. -/
def onceEnv : Env :=
  { sampleEnv with
    processKill := fun tr p => if Event.processKill p ∈ tr then some (.ext 3) else none
    cmdWait := fun tr c => if Event.cmdWait c ∈ tr then some (.ext 10) else none }

/-- The sample cluster after two machines have been created. -/
def twoMachines : qemuCluster × World :=
  ((freshCluster.NewMachine sampleEnv World.init).2.1.NewMachine sampleEnv
    (freshCluster.NewMachine sampleEnv World.init).2.2).2

/-- The first machine of the sample cluster. -/
def firstMachine : qemuMachine :=
  NewMachine.started sampleEnv World.init { fd := 11 }
    { File := { fd := 12 }, Name := "tap0" } { pid := 4006 }

/-! # Theorems -/

/-! ## Equations for `NewMachine`, one per way a run can go -/

theorem newMachine_disk_error (env : Env) (qc : qemuCluster) (w : World) (err : Error)
    (h : (setupDisk env (NewMachine.wDisk w)).1 = .error err) :
    qc.NewMachine env w = (.returned (none, some err), qc, NewMachine.wTap env w) := by
  unfold qemuCluster.NewMachine NewMachine.wTap
  simp only [getInterface]
  rcases hd : setupDisk env (NewMachine.wDisk w) with ⟨r, w1⟩
  rw [hd] at h
  simp only at h
  subst h
  simp only [NewMachine.wDisk] at hd
  simp [hd]

theorem newMachine_tap_error (env : Env) (qc : qemuCluster) (w : World) (disk : File)
    (err : Error)
    (hdisk : (setupDisk env (NewMachine.wDisk w)).1 = .ok disk)
    (htap : env.newTap (NewMachine.wTap env w).trace "br0" = .error err) :
    qc.NewMachine env w =
      (.returned (none, some err), qc, fileClose disk (NewMachine.wStart env w)) := by
  unfold qemuCluster.NewMachine NewMachine.wStart
  unfold NewMachine.wTap at *
  simp only [getInterface]
  rcases hd : setupDisk env (NewMachine.wDisk w) with ⟨r, w1⟩
  rw [hd] at hdisk htap
  simp only at hdisk htap
  subst hdisk
  simp only [NewMachine.wDisk] at hd
  simp [hd, newTap, htap]

theorem newMachine_launch (env : Env) (qc : qemuCluster) (w : World) (disk : File)
    (tap : TunTap)
    (hdisk : (setupDisk env (NewMachine.wDisk w)).1 = .ok disk)
    (htap : env.newTap (NewMachine.wTap env w).trace "br0" = .ok tap) :
    qc.NewMachine env w =
      ((NewMachine.launch env qc (NewMachine.qm env w) (NewMachine.cmd env w disk tap)
          (NewMachine.wStart env w)).1,
       (NewMachine.launch env qc (NewMachine.qm env w) (NewMachine.cmd env w disk tap)
          (NewMachine.wStart env w)).2.1,
       fileClose disk (tapClose tap
        (NewMachine.launch env qc (NewMachine.qm env w) (NewMachine.cmd env w disk tap)
          (NewMachine.wStart env w)).2.2)) := by
  unfold qemuCluster.NewMachine NewMachine.wStart NewMachine.cmd NewMachine.qm
  unfold NewMachine.wTap at *
  simp only [getInterface]
  rcases hd : setupDisk env (NewMachine.wDisk w) with ⟨r, w1⟩
  rw [hd] at hdisk htap
  simp only at hdisk htap
  subst hdisk
  simp only [NewMachine.wDisk] at hd
  simp [hd, newTap, htap]

theorem destroy_started (env : Env) (qm : qemuMachine) (cmd : Cmd) (proc : Process)
    (w : World) (hq : qm.qemu = some cmd) (hp : cmd.Process = some proc) :
    qm.Destroy env w =
      (.returned none, (w.emit (.processKill proc)).emit (.cmdWait cmd)) := by
  unfold qemuMachine.Destroy
  simp [hq, hp, processKill, cmdWait]

theorem launch_start_error (env : Env) (qc : qemuCluster) (qm : qemuMachine) (cmd : Cmd)
    (w : World) (err : Error) (h : env.commandStart w.trace cmd = .error err) :
    NewMachine.launch env qc qm cmd w =
      (.returned (none, some err), qc, w.emit (.commandStart cmd)) := by
  unfold NewMachine.launch
  simp [commandStart, h]

theorem launch_ssh_panic (env : Env) (qc : qemuCluster) (qm : qemuMachine) (cmd : Cmd)
    (w : World) (proc : Process) (p : Panic)
    (h : env.commandStart w.trace cmd = .ok proc)
    (hs : (qemuMachine.SSH env { qm with qemu := some { cmd with Process := some proc } }
      NewMachine.probe (w.emit (.commandStart cmd))).1 = .panicked p) :
    NewMachine.launch env qc qm cmd w =
      (.panicked p, qc,
        (qemuMachine.SSH env { qm with qemu := some { cmd with Process := some proc } }
          NewMachine.probe (w.emit (.commandStart cmd))).2) := by
  unfold NewMachine.launch
  simp only [commandStart, h]
  unfold NewMachine.probe at hs
  rcases hq : qemuMachine.SSH env { qm with qemu := some { cmd with Process := some proc } }
    "grep ^ID= /etc/os-release" (w.emit (.commandStart cmd)) with ⟨r, w1⟩
  rw [hq] at hs
  simp only at hs
  subst hs
  simp [NewMachine.probe, hq]

theorem launch_ssh_error (env : Env) (qc : qemuCluster) (qm : qemuMachine) (cmd : Cmd)
    (w : World) (proc : Process) (out : Bytes) (err : Error)
    (h : env.commandStart w.trace cmd = .ok proc)
    (hs : (qemuMachine.SSH env { qm with qemu := some { cmd with Process := some proc } }
      NewMachine.probe (w.emit (.commandStart cmd))).1 = .returned (out, some err)) :
    NewMachine.launch env qc qm cmd w =
      (.returned (none, some err), qc,
        ((qemuMachine.SSH env { qm with qemu := some { cmd with Process := some proc } }
          NewMachine.probe (w.emit (.commandStart cmd))).2.emit
            (.processKill proc)).emit (.cmdWait { cmd with Process := some proc })) := by
  unfold NewMachine.launch
  simp only [commandStart, h]
  unfold NewMachine.probe at hs
  rcases hq : qemuMachine.SSH env { qm with qemu := some { cmd with Process := some proc } }
    "grep ^ID= /etc/os-release" (w.emit (.commandStart cmd)) with ⟨r, w1⟩
  rw [hq] at hs
  simp only at hs
  subst hs
  simp [NewMachine.probe, hq, qemuMachine.Destroy, processKill, cmdWait]

theorem launch_mismatch (env : Env) (qc : qemuCluster) (qm : qemuMachine) (cmd : Cmd)
    (w : World) (proc : Process) (out : Bytes)
    (h : env.commandStart w.trace cmd = .ok proc)
    (hs : (qemuMachine.SSH env { qm with qemu := some { cmd with Process := some proc } }
      NewMachine.probe (w.emit (.commandStart cmd))).1 = .returned (out, none))
    (hne : out ≠ idCoreos) :
    NewMachine.launch env qc qm cmd w =
      (.returned (none, some (.errorf "Unexpected SSH output: %s" out)), qc,
        ((qemuMachine.SSH env { qm with qemu := some { cmd with Process := some proc } }
          NewMachine.probe (w.emit (.commandStart cmd))).2.emit
            (.processKill proc)).emit (.cmdWait { cmd with Process := some proc })) := by
  unfold NewMachine.launch
  simp only [commandStart, h]
  unfold NewMachine.probe at hs
  rcases hq : qemuMachine.SSH env { qm with qemu := some { cmd with Process := some proc } }
    "grep ^ID= /etc/os-release" (w.emit (.commandStart cmd)) with ⟨r, w1⟩
  rw [hq] at hs
  simp only at hs
  subst hs
  simp [NewMachine.probe, hq, hne, qemuMachine.Destroy, processKill, cmdWait]

theorem launch_verified (env : Env) (qc : qemuCluster) (qm : qemuMachine) (cmd : Cmd)
    (w : World) (proc : Process)
    (h : env.commandStart w.trace cmd = .ok proc)
    (hs : (qemuMachine.SSH env { qm with qemu := some { cmd with Process := some proc } }
      NewMachine.probe (w.emit (.commandStart cmd))).1 = .returned (idCoreos, none)) :
    NewMachine.launch env qc qm cmd w =
      (.returned (some { qm with qemu := some { cmd with Process := some proc } }, none),
        { qc with machines := (goAppend env
            (qemuMachine.SSH env { qm with qemu := some { cmd with Process := some proc } }
              NewMachine.probe (w.emit (.commandStart cmd))).2.heap qc.machines
            (some { qm with qemu := some { cmd with Process := some proc } })).1 },
        { (qemuMachine.SSH env { qm with qemu := some { cmd with Process := some proc } }
              NewMachine.probe (w.emit (.commandStart cmd))).2 with
          heap := (goAppend env
            (qemuMachine.SSH env { qm with qemu := some { cmd with Process := some proc } }
              NewMachine.probe (w.emit (.commandStart cmd))).2.heap qc.machines
            (some { qm with qemu := some { cmd with Process := some proc } })).2 }) := by
  unfold NewMachine.launch
  simp only [commandStart, h]
  unfold NewMachine.probe at hs
  rcases hq : qemuMachine.SSH env { qm with qemu := some { cmd with Process := some proc } }
    "grep ^ID= /etc/os-release" (w.emit (.commandStart cmd)) with ⟨r, w1⟩
  rw [hq] at hs
  simp only at hs
  subst hs
  simp [NewMachine.probe, hq]

/-! ## Slice memory -/

theorem heap_getD_set_self {α : Type} (h : List (List α)) (p : Nat) (a : List α)
    (hp : p < h.length) : (h.set p a).getD p [] = a := by
  simp [List.getD_eq_getElem?_getD, hp]

theorem heap_getD_set_ne {α : Type} (h : List (List α)) (p q : Nat) (a : List α)
    (hq : p ≠ q) : (h.set p a).getD q [] = h.getD q [] := by
  simp [List.getD_eq_getElem?_getD, List.getElem?_set_ne hq]

theorem heap_getD_append_left {α : Type} (h : List (List α)) (q : Nat) (a : List α)
    (hq : q < h.length) : (h ++ [a]).getD q [] = h.getD q [] := by
  simp [List.getD_eq_getElem?_getD, List.getElem?_append_left hq]

theorem heap_getD_append_self {α : Type} (h : List (List α)) (a : List α) :
    (h ++ [a]).getD h.length [] = a := by
  simp [List.getD_eq_getElem?_getD]

theorem take_succ_set {α : Type} (l : List α) (n : Nat) (x : α) (hn : n < l.length) :
    (l.set n x).take (n + 1) = l.take n ++ [x] := by
  have h1 : (l.set n x).take n = l.take n := by
    apply List.ext_getElem?
    intro i
    rw [List.getElem?_take, List.getElem?_take]
    split
    · rw [List.getElem?_set_ne (by omega)]
    · rfl
  rw [List.take_succ, h1]
  simp [hn]

theorem take_succ_append {α : Type} (a r : List α) (x : α) (n : Nat) (hn : a.length = n) :
    (a ++ [x] ++ r).take (n + 1) = a ++ [x] := by
  have : (a ++ [x]).length = n + 1 := by simp [hn]
  exact List.take_left' this

theorem read_length (h : Heap) (s : Slice) (hwf : s.WF h) : (s.read h).length = s.len := by
  unfold Slice.WF at hwf
  unfold Slice.read
  cases hp : s.ptr with
  | none => simp [hp] at hwf ⊢; omega
  | some p =>
    simp only [hp] at hwf ⊢
    simp only [List.length_take]
    omega

theorem goAppend_read (env : Env) (h : Heap) (s : Slice) (x : Option qemuMachine)
    (hwf : s.WF h) :
    (goAppend env h s x).1.read (goAppend env h s x).2 = s.read h ++ [x] := by
  have hlen := read_length h s hwf
  unfold Slice.WF at hwf
  unfold goAppend
  cases hp : s.ptr with
  | none =>
    simp only [hp] at hwf ⊢
    simp only [Slice.read, heap_getD_append_self, hp] at hlen ⊢
    exact take_succ_append [] _ x s.len hlen
  | some p =>
    simp only [hp] at hwf ⊢
    obtain ⟨hp1, hp2, hp3⟩ := hwf
    by_cases hc : s.len < s.cap
    · simp only [hc, if_true]
      simp only [Slice.read, hp, heap_getD_set_self h p _ hp1]
      exact take_succ_set _ _ _ (by omega)
    · simp only [hc, if_false]
      simp only [Slice.read, heap_getD_append_self, hp] at hlen ⊢
      exact take_succ_append _ _ x s.len hlen

theorem goAppend_WF (env : Env) (h : Heap) (s : Slice) (x : Option qemuMachine)
    (hwf : s.WF h) : (goAppend env h s x).1.WF (goAppend env h s x).2 := by
  have hlen := read_length h s hwf
  unfold Slice.WF at hwf
  unfold goAppend
  cases hp : s.ptr with
  | none =>
    simp only [hp] at hwf ⊢
    simp only [Slice.WF, heap_getD_append_self]
    simp [hlen]
    omega
  | some p =>
    simp only [hp] at hwf ⊢
    obtain ⟨hp1, hp2, hp3⟩ := hwf
    by_cases hc : s.len < s.cap
    · simp only [hc, if_true]
      simp only [Slice.WF, hp, heap_getD_set_self h p _ hp1, List.length_set]
      exact ⟨hp1, by omega, hp3⟩
    · simp only [hc, if_false]
      simp only [Slice.WF, heap_getD_append_self]
      simp [hlen]
      omega

/-- Appending to one slice leaves every slice with another backing array as
it was. -/
theorem goAppend_frame (env : Env) (h : Heap) (s t : Slice) (x : Option qemuMachine)
    (q : Nat) (htq : t.ptr = some q) (hq : q < h.length) (hne : s.ptr ≠ some q) :
    t.read (goAppend env h s x).2 = t.read h := by
  unfold goAppend
  cases hp : s.ptr with
  | none =>
    simp only [Slice.read, htq, heap_getD_append_left h q _ hq]
  | some p =>
    have hpq : p ≠ q := by
      intro e
      apply hne
      rw [hp, e]
    simp only
    by_cases hc : s.len < s.cap
    · simp only [hc, if_true]
      simp only [Slice.read, htq, heap_getD_set_ne h p q _ hpq]
    · simp only [hc, if_false]
      simp only [Slice.read, htq, heap_getD_append_left h q _ hq]

theorem write_fresh (h : Heap) (a : List (Option qemuMachine)) (n i : Nat)
    (x : Option qemuMachine) (hi : i < n) :
    Slice.write (h ++ [a]) { ptr := some h.length, len := n, cap := n } i x =
      h ++ [a.set i x] := by
  simp [Slice.write, hi, heap_getD_append_self]

theorem loop_step {α : Type} (A : List (Option α)) (n k : Nat) (hk : k < n)
    (hn : n ≤ A.length) :
    ((A.take n).take k ++ List.replicate (n - k) none).set k (A.getD k none) =
      (A.take n).take (k + 1) ++ List.replicate (n - (k + 1)) none := by
  apply List.ext_getElem?
  intro i
  rw [List.getElem?_set]
  simp only [List.getElem?_append, List.length_take, List.getElem?_take,
    List.getElem?_replicate, List.length_append, List.length_replicate,
    List.getD_eq_getElem?_getD]
  have e1 : min k (min n A.length) = k := by omega
  have e2 : min (k + 1) (min n A.length) = k + 1 := by omega
  rw [e1, e2]
  by_cases h1 : k = i
  · subst h1
    have h3 : k < k + (n - k) := by omega
    have h4 : k < A.length := by omega
    simp [h3, hk, h4]
  · simp only [h1, if_false]
    by_cases h2 : i < k
    · have h3 : i < k + 1 := by omega
      have h4 : i < n := by omega
      simp [h2, h3, h4]
    · have h3 : ¬ i < k + 1 := by omega
      simp only [h2, h3, if_false]
      by_cases h5 : i - k < n - k
      · have h6 : i - (k + 1) < n - (k + 1) := by omega
        simp [h5, h6]
      · have h6 : ¬ i - (k + 1) < n - (k + 1) := by omega
        simp [h5, h6]

theorem machines_loop (h : Heap) (s : Slice) (hwf : s.WF h) (k : Nat) (hk : k ≤ s.len) :
    (List.range k).foldl
      (fun heap i => Slice.write heap { ptr := some h.length, len := s.len, cap := s.len } i
        (s.index heap i))
      (h ++ [List.replicate s.len none]) =
    h ++ [(s.read h).take k ++ List.replicate (s.len - k) none] := by
  induction k with
  | zero => simp
  | succ k ih =>
    rw [List.range_succ, List.foldl_append, ih (by omega)]
    simp only [List.foldl_cons, List.foldl_nil]
    rw [write_fresh _ _ _ _ _ (by omega)]
    congr 2
    unfold Slice.WF at hwf
    cases hp : s.ptr with
    | none =>
      simp only [hp] at hwf
      omega
    | some p =>
      simp only [hp] at hwf
      obtain ⟨hp1, hp2, hp3⟩ := hwf
      simp only [Slice.index, Slice.read, hp, heap_getD_append_left h p _ hp1]
      exact loop_step (h.getD p []) s.len k (by omega) (by omega)

theorem machines_eq (qc : qemuCluster) (w : World) (hwf : qc.machines.WF w.heap) :
    qc.Machines w =
      ({ ptr := some w.heap.length, len := qc.machines.len, cap := qc.machines.len },
       { w with heap := w.heap ++ [qc.machines.read w.heap] }) := by
  unfold qemuCluster.Machines goMake
  simp only
  rw [machines_loop w.heap qc.machines hwf qc.machines.len (Nat.le_refl _)]
  have hlen := read_length w.heap qc.machines hwf
  simp [← hlen]

/-! ## Equations for `NewMachine` once the disk and the tap exist -/

theorem newMachine_start_error (env : Env) (qc : qemuCluster) (w : World) (disk : File)
    (tap : TunTap) (err : Error)
    (hdisk : (setupDisk env (NewMachine.wDisk w)).1 = .ok disk)
    (htap : env.newTap (NewMachine.wTap env w).trace "br0" = .ok tap)
    (hstart : env.commandStart (NewMachine.wStart env w).trace
      (NewMachine.cmd env w disk tap) = .error err) :
    qc.NewMachine env w =
      (.returned (none, some err), qc,
        fileClose disk (tapClose tap (NewMachine.wSSH env w disk tap))) := by
  rw [newMachine_launch env qc w disk tap hdisk htap,
    launch_start_error env qc _ _ _ err hstart]
  rfl

theorem newMachine_ssh_panic (env : Env) (qc : qemuCluster) (w : World) (disk : File)
    (tap : TunTap) (proc : Process) (p : Panic)
    (hdisk : (setupDisk env (NewMachine.wDisk w)).1 = .ok disk)
    (htap : env.newTap (NewMachine.wTap env w).trace "br0" = .ok tap)
    (hstart : env.commandStart (NewMachine.wStart env w).trace
      (NewMachine.cmd env w disk tap) = .ok proc)
    (hssh : (NewMachine.sshRun env w disk tap proc).1 = .panicked p) :
    qc.NewMachine env w =
      (.panicked p, qc,
        fileClose disk (tapClose tap (NewMachine.sshRun env w disk tap proc).2)) := by
  rw [newMachine_launch env qc w disk tap hdisk htap,
    launch_ssh_panic env qc _ _ _ proc p hstart hssh]
  rfl

theorem newMachine_ssh_error (env : Env) (qc : qemuCluster) (w : World) (disk : File)
    (tap : TunTap) (proc : Process) (out : Bytes) (err : Error)
    (hdisk : (setupDisk env (NewMachine.wDisk w)).1 = .ok disk)
    (htap : env.newTap (NewMachine.wTap env w).trace "br0" = .ok tap)
    (hstart : env.commandStart (NewMachine.wStart env w).trace
      (NewMachine.cmd env w disk tap) = .ok proc)
    (hssh : (NewMachine.sshRun env w disk tap proc).1 = .returned (out, some err)) :
    qc.NewMachine env w =
      (.returned (none, some err), qc,
        fileClose disk (tapClose tap (NewMachine.wDestroyed env w disk tap proc))) := by
  rw [newMachine_launch env qc w disk tap hdisk htap,
    launch_ssh_error env qc _ _ _ proc out err hstart hssh]
  rfl

theorem newMachine_mismatch (env : Env) (qc : qemuCluster) (w : World) (disk : File)
    (tap : TunTap) (proc : Process) (out : Bytes)
    (hdisk : (setupDisk env (NewMachine.wDisk w)).1 = .ok disk)
    (htap : env.newTap (NewMachine.wTap env w).trace "br0" = .ok tap)
    (hstart : env.commandStart (NewMachine.wStart env w).trace
      (NewMachine.cmd env w disk tap) = .ok proc)
    (hssh : (NewMachine.sshRun env w disk tap proc).1 = .returned (out, none))
    (hne : out ≠ idCoreos) :
    qc.NewMachine env w =
      (.returned (none, some (.errorf "Unexpected SSH output: %s" out)), qc,
        fileClose disk (tapClose tap (NewMachine.wDestroyed env w disk tap proc))) := by
  rw [newMachine_launch env qc w disk tap hdisk htap,
    launch_mismatch env qc _ _ _ proc out hstart hssh hne]
  rfl

theorem newMachine_verified (env : Env) (qc : qemuCluster) (w : World) (disk : File)
    (tap : TunTap) (proc : Process)
    (hdisk : (setupDisk env (NewMachine.wDisk w)).1 = .ok disk)
    (htap : env.newTap (NewMachine.wTap env w).trace "br0" = .ok tap)
    (hstart : env.commandStart (NewMachine.wStart env w).trace
      (NewMachine.cmd env w disk tap) = .ok proc)
    (hssh : (NewMachine.sshRun env w disk tap proc).1 = .returned (idCoreos, none)) :
    qc.NewMachine env w =
      (.returned (some (NewMachine.started env w disk tap proc), none),
        { qc with machines := (goAppend env (NewMachine.sshRun env w disk tap proc).2.heap
            qc.machines (some (NewMachine.started env w disk tap proc))).1 },
        fileClose disk (tapClose tap
          { (NewMachine.sshRun env w disk tap proc).2 with
            heap := (goAppend env (NewMachine.sshRun env w disk tap proc).2.heap
              qc.machines (some (NewMachine.started env w disk tap proc))).2 })) := by
  rw [newMachine_launch env qc w disk tap hdisk htap,
    launch_verified env qc _ _ _ proc hstart hssh]
  rfl

/-! ## What the external calls leave untouched -/

theorem emit_heap (w : World) (e : Event) : (w.emit e).heap = w.heap := rfl

theorem emit_trace (w : World) (e : Event) : (w.emit e).trace = w.trace ++ [e] := rfl

theorem setupDisk_world (env : Env) (w : World) :
    ∃ evs : List Event, (setupDisk env w).2 = { w with trace := w.trace ++ evs } ∧
      ∀ e ∈ evs, e.isStaging = true := by
  unfold setupDisk
  simp only [osOpen, tempFile, ioCopy, fileClose, World.emit]
  cases env.osOpen w.trace env.qemuImage with
  | error e => exact ⟨[.osOpen env.qemuImage], rfl, by simp [Event.isStaging]⟩
  | ok src =>
    simp only
    cases env.tempFile (w.trace ++ [Event.osOpen env.qemuImage]) "" with
    | error e =>
      refine ⟨[.osOpen env.qemuImage, .tempFile "", .fileClose src], ?_,
        by simp [Event.isStaging]⟩
      simp
    | ok dst =>
      simp only
      cases env.ioCopy (w.trace ++ [Event.osOpen env.qemuImage] ++ [Event.tempFile ""]) dst src with
      | some e =>
        refine ⟨[.osOpen env.qemuImage, .tempFile "", .ioCopy dst src, .fileClose dst,
          .fileClose src], ?_, by simp [Event.isStaging]⟩
        simp
      | none =>
        refine ⟨[.osOpen env.qemuImage, .tempFile "", .ioCopy dst src, .fileClose src], ?_,
          by simp [Event.isStaging]⟩
        simp

theorem ssh_world (env : Env) (qm : qemuMachine) (cmd : String) (w : World) :
    ∃ evs : List Event, (qm.SSH env cmd w).2 = { w with trace := w.trace ++ evs } ∧
      ∀ e ∈ evs, e.isRemote = true := by
  unfold qemuMachine.SSH
  simp only [newClient, newSession, sessionOutput, sessionClose, clientClose, World.emit]
  cases qm.IP env with
  | panicked p => exact ⟨[], by simp, by simp⟩
  | returned ip =>
    simp only
    cases env.newClient w.trace ip with
    | error e => exact ⟨[.newClient ip], rfl, by simp [Event.isRemote]⟩
    | ok client =>
      simp only
      cases env.newSession (w.trace ++ [Event.newClient ip]) client with
      | error e =>
        refine ⟨[.newClient ip, .newSession client, .clientClose client], ?_,
          by simp [Event.isRemote]⟩
        simp
      | ok session =>
        refine ⟨[.newClient ip, .newSession client,
          .sessionOutput { session with Stderr := some Writer.osStderr } cmd,
          .sessionClose { session with Stderr := some Writer.osStderr },
          .clientClose client], ?_, by simp [Event.isRemote]⟩
        simp

theorem setupDisk_heap (env : Env) (w : World) : (setupDisk env w).2.heap = w.heap := by
  obtain ⟨evs, h, _⟩ := setupDisk_world env w
  rw [h]

theorem ssh_heap (env : Env) (qm : qemuMachine) (cmd : String) (w : World) :
    (qm.SSH env cmd w).2.heap = w.heap := by
  obtain ⟨evs, h, _⟩ := ssh_world env qm cmd w
  rw [h]

theorem sshRun_heap (env : Env) (w : World) (disk : File) (tap : TunTap) (proc : Process) :
    (NewMachine.sshRun env w disk tap proc).2.heap = w.heap := by
  unfold NewMachine.sshRun
  rw [ssh_heap]
  simp only [NewMachine.wSSH, NewMachine.wStart, NewMachine.wTap, emit_heap, setupDisk_heap,
    NewMachine.wDisk]

/-- Every run of `NewMachine` goes one of seven ways. -/
theorem newMachine_cases (env : Env) (qc : qemuCluster) (w : World) :
    (∃ err, (setupDisk env (NewMachine.wDisk w)).1 = .error err ∧
      qc.NewMachine env w = (.returned (none, some err), qc, NewMachine.wTap env w)) ∨
    (∃ disk err, (setupDisk env (NewMachine.wDisk w)).1 = .ok disk ∧
      env.newTap (NewMachine.wTap env w).trace "br0" = .error err ∧
      qc.NewMachine env w =
        (.returned (none, some err), qc, fileClose disk (NewMachine.wStart env w))) ∨
    (∃ disk tap, (setupDisk env (NewMachine.wDisk w)).1 = .ok disk ∧
      env.newTap (NewMachine.wTap env w).trace "br0" = .ok tap ∧
      ((∃ err, env.commandStart (NewMachine.wStart env w).trace
          (NewMachine.cmd env w disk tap) = .error err ∧
        qc.NewMachine env w = (.returned (none, some err), qc,
          fileClose disk (tapClose tap (NewMachine.wSSH env w disk tap)))) ∨
      (∃ proc, env.commandStart (NewMachine.wStart env w).trace
          (NewMachine.cmd env w disk tap) = .ok proc ∧
        ((∃ p, (NewMachine.sshRun env w disk tap proc).1 = .panicked p ∧
          qc.NewMachine env w = (.panicked p, qc,
            fileClose disk (tapClose tap (NewMachine.sshRun env w disk tap proc).2))) ∨
        (∃ out err, (NewMachine.sshRun env w disk tap proc).1 = .returned (out, some err) ∧
          qc.NewMachine env w = (.returned (none, some err), qc,
            fileClose disk (tapClose tap (NewMachine.wDestroyed env w disk tap proc)))) ∨
        (∃ out, (NewMachine.sshRun env w disk tap proc).1 = .returned (out, none) ∧
          out ≠ idCoreos ∧
          qc.NewMachine env w =
            (.returned (none, some (.errorf "Unexpected SSH output: %s" out)), qc,
              fileClose disk (tapClose tap (NewMachine.wDestroyed env w disk tap proc)))) ∨
        ((NewMachine.sshRun env w disk tap proc).1 = .returned (idCoreos, none) ∧
          qc.NewMachine env w =
            (.returned (some (NewMachine.started env w disk tap proc), none),
              { qc with machines := (goAppend env w.heap qc.machines
                  (some (NewMachine.started env w disk tap proc))).1 },
              fileClose disk (tapClose tap
                { (NewMachine.sshRun env w disk tap proc).2 with
                  heap := (goAppend env w.heap qc.machines
                    (some (NewMachine.started env w disk tap proc))).2 }))))))) := by
  cases hdisk : (setupDisk env (NewMachine.wDisk w)).1 with
  | error err =>
    exact Or.inl ⟨err, rfl, newMachine_disk_error env qc w err hdisk⟩
  | ok disk =>
    cases htap : env.newTap (NewMachine.wTap env w).trace "br0" with
    | error err =>
      exact Or.inr (Or.inl ⟨disk, err, rfl, rfl,
        newMachine_tap_error env qc w disk err hdisk htap⟩)
    | ok tap =>
      refine Or.inr (Or.inr ⟨disk, tap, rfl, rfl, ?_⟩)
      cases hstart : env.commandStart (NewMachine.wStart env w).trace
          (NewMachine.cmd env w disk tap) with
      | error err =>
        exact Or.inl ⟨err, rfl,
          newMachine_start_error env qc w disk tap err hdisk htap hstart⟩
      | ok proc =>
        refine Or.inr ⟨proc, rfl, ?_⟩
        cases hssh : (NewMachine.sshRun env w disk tap proc).1 with
        | panicked p =>
          exact Or.inl ⟨p, rfl,
            newMachine_ssh_panic env qc w disk tap proc p hdisk htap hstart hssh⟩
        | returned r =>
          obtain ⟨out, oerr⟩ := r
          cases oerr with
          | some err =>
            exact Or.inr (Or.inl ⟨out, err, rfl,
              newMachine_ssh_error env qc w disk tap proc out err hdisk htap hstart hssh⟩)
          | none =>
            by_cases hne : out = idCoreos
            · subst hne
              refine Or.inr (Or.inr (Or.inr ⟨rfl, ?_⟩))
              rw [newMachine_verified env qc w disk tap proc hdisk htap hstart hssh,
                sshRun_heap]
            · exact Or.inr (Or.inr (Or.inl ⟨out, rfl, hne,
                newMachine_mismatch env qc w disk tap proc out hdisk htap hstart hssh hne⟩))

/-! ## Started machines and teardown -/

theorem destroy_isStarted (env : Env) (qm : qemuMachine) (w : World)
    (h : qm.isStarted = true) :
    qm.Destroy env w = (.returned none, { w with trace := w.trace ++ qm.killWait }) := by
  unfold qemuMachine.isStarted at h
  unfold qemuMachine.Destroy qemuMachine.killWait
  cases hq : qm.qemu with
  | none => simp [hq] at h
  | some cmd =>
    simp only [hq] at h ⊢
    cases hp : cmd.Process with
    | none => simp [hp] at h
    | some proc => simp [processKill, cmdWait, World.emit]

theorem destroyEach_allStarted (env : Env) (ms : List (Option qemuMachine)) (w : World)
    (h : allStarted ms = true) :
    destroyEach env ms w =
      (.returned (), { w with trace := w.trace ++ teardownEvents ms }) := by
  induction ms generalizing w with
  | nil => simp [destroyEach, teardownEvents]
  | cons m rest ih =>
    cases m with
    | none => simp [allStarted] at h
    | some qm =>
      simp only [allStarted, List.all_cons, Bool.and_eq_true] at h
      have hrest : allStarted rest = true := h.2
      simp only [destroyEach, destroy_isStarted env qm w h.1, teardownEvents]
      rw [ih _ hrest]
      simp

theorem teardownEvents_no_localDestroy (ms : List (Option qemuMachine)) :
    Event.localDestroy ∉ teardownEvents ms := by
  induction ms with
  | nil => simp [teardownEvents]
  | cons m rest ih =>
    cases m with
    | none => simpa [teardownEvents] using ih
    | some qm =>
      simp only [teardownEvents, List.mem_append, not_or]
      refine ⟨?_, ih⟩
      unfold qemuMachine.killWait
      cases qm.qemu with
      | none => simp
      | some cmd =>
        cases hp : cmd.Process with
        | none => simp [hp]
        | some proc => simp [hp]

theorem teardownEvents_length (ms : List (Option qemuMachine)) (h : allStarted ms = true) :
    (teardownEvents ms).length = 2 * ms.length := by
  induction ms with
  | nil => simp [teardownEvents]
  | cons m rest ih =>
    cases m with
    | none => simp [allStarted] at h
    | some qm =>
      simp only [allStarted, List.all_cons, Bool.and_eq_true] at h
      have hrest : allStarted rest = true := h.2
      have hq : qm.killWait.length = 2 := by
        have h1 := h.1
        unfold qemuMachine.isStarted at h1
        unfold qemuMachine.killWait
        cases hq : qm.qemu with
        | none => simp [hq] at h1
        | some cmd =>
          simp only [hq] at h1 ⊢
          cases hp : cmd.Process with
          | none => simp [hp] at h1
          | some proc => simp
      simp only [teardownEvents, List.length_append, List.length_cons, ih hrest, hq]
      omega

theorem teardownEvents_index (ms : List (Option qemuMachine)) (h : allStarted ms = true)
    (i : Nat) (qm : qemuMachine) (cmd : Cmd) (proc : Process)
    (hi : ms[i]? = some (some qm)) (hq : qm.qemu = some cmd) (hp : cmd.Process = some proc) :
    (teardownEvents ms)[2 * i]? = some (.processKill proc) ∧
    (teardownEvents ms)[2 * i + 1]? = some (.cmdWait cmd) := by
  induction ms generalizing i with
  | nil => simp at hi
  | cons m rest ih =>
    cases m with
    | none => simp [allStarted] at h
    | some q0 =>
      simp only [allStarted, List.all_cons, Bool.and_eq_true] at h
      have hrest : allStarted rest = true := h.2
      have h0 : ∃ c0 p0, q0.qemu = some c0 ∧ c0.Process = some p0 ∧
          q0.killWait = [.processKill p0, .cmdWait c0] := by
        have h1 := h.1
        unfold qemuMachine.isStarted at h1
        unfold qemuMachine.killWait
        cases hq0 : q0.qemu with
        | none => simp [hq0] at h1
        | some c0 =>
          simp only [hq0] at h1 ⊢
          cases hp0 : c0.Process with
          | none => simp [hp0] at h1
          | some p0 => exact ⟨c0, p0, rfl, hp0, by simp only [hp0]⟩
      obtain ⟨c0, p0, hc0, hp0, hkw⟩ := h0
      simp only [teardownEvents, hkw]
      cases i with
      | zero =>
        simp only [List.getElem?_cons_zero, Option.some.injEq] at hi
        subst hi
        rw [hc0] at hq
        simp only [Option.some.injEq] at hq
        subst hq
        rw [hp0] at hp
        simp only [Option.some.injEq] at hp
        subst hp
        simp
      | succ j =>
        simp only [List.getElem?_cons_succ] at hi
        have := ih hrest j hi
        have e1 : 2 * (j + 1) = (2 * j) + 1 + 1 := by omega
        have e2 : 2 * (j + 1) + 1 = (2 * j + 1) + 1 + 1 := by omega
        rw [e2, e1]
        simpa using this

/-- The machines of a cluster stay started: `NewMachine` only ever appends a
machine whose process exists. -/
theorem newMachine_allStarted (env : Env) (qc : qemuCluster) (w : World)
    (hwf : qc.machines.WF w.heap)
    (h : allStarted (qc.machines.read w.heap) = true) :
    allStarted ((qc.NewMachine env w).2.1.machines.read (qc.NewMachine env w).2.2.heap)
      = true := by
  have hw : ∀ disk tap proc,
      (fileClose disk (tapClose tap (NewMachine.wDestroyed env w disk tap proc))).heap
        = w.heap := by
    intro disk tap proc
    simp only [fileClose, tapClose, NewMachine.wDestroyed, emit_heap, sshRun_heap]
  have hw1 : ∀ disk tap proc,
      (fileClose disk (tapClose tap (NewMachine.sshRun env w disk tap proc).2)).heap
        = w.heap := by
    intro disk tap proc
    simp only [fileClose, tapClose, emit_heap, sshRun_heap]
  have hw2 : ∀ disk tap,
      (fileClose disk (tapClose tap (NewMachine.wSSH env w disk tap))).heap = w.heap := by
    intro disk tap
    simp only [fileClose, tapClose, NewMachine.wSSH, NewMachine.wStart, NewMachine.wTap,
      emit_heap, setupDisk_heap, NewMachine.wDisk]
  have hw3 : ∀ disk, (fileClose disk (NewMachine.wStart env w)).heap = w.heap := by
    intro disk
    simp only [fileClose, NewMachine.wStart, NewMachine.wTap,
      emit_heap, setupDisk_heap, NewMachine.wDisk]
  have hw4 : (NewMachine.wTap env w).heap = w.heap := by
    simp only [NewMachine.wTap, emit_heap, setupDisk_heap, NewMachine.wDisk]
  rcases newMachine_cases env qc w with
    ⟨e, _, hn⟩ | ⟨disk, e, _, _, hn⟩ | ⟨disk, tap, _, _, ⟨e, _, hn⟩ | ⟨proc, _,
      ⟨p, _, hn⟩ | ⟨out, e, _, hn⟩ | ⟨out, _, _, hn⟩ | ⟨_, hn⟩⟩⟩
  all_goals rw [hn]
  · simpa only [hw4] using h
  · simpa only [hw3] using h
  · simpa only [hw2] using h
  · simpa only [hw1] using h
  · simpa only [hw] using h
  · simpa only [hw] using h
  · simp only [fileClose, tapClose, emit_heap]
    rw [goAppend_read env w.heap qc.machines _ hwf]
    simp only [allStarted, List.all_append, Bool.and_eq_true] at h ⊢
    exact ⟨h, by simp [qemuMachine.isStarted, NewMachine.started]⟩

/-- `NewMachine` keeps the slice header of the cluster consistent. -/
theorem newMachine_WF (env : Env) (qc : qemuCluster) (w : World)
    (hwf : qc.machines.WF w.heap) :
    (qc.NewMachine env w).2.1.machines.WF (qc.NewMachine env w).2.2.heap := by
  have hw : ∀ disk tap proc,
      (fileClose disk (tapClose tap (NewMachine.wDestroyed env w disk tap proc))).heap
        = w.heap := by
    intro disk tap proc
    simp only [fileClose, tapClose, NewMachine.wDestroyed, emit_heap, sshRun_heap]
  have hw1 : ∀ disk tap proc,
      (fileClose disk (tapClose tap (NewMachine.sshRun env w disk tap proc).2)).heap
        = w.heap := by
    intro disk tap proc
    simp only [fileClose, tapClose, emit_heap, sshRun_heap]
  have hw2 : ∀ disk tap,
      (fileClose disk (tapClose tap (NewMachine.wSSH env w disk tap))).heap = w.heap := by
    intro disk tap
    simp only [fileClose, tapClose, NewMachine.wSSH, NewMachine.wStart, NewMachine.wTap,
      emit_heap, setupDisk_heap, NewMachine.wDisk]
  have hw3 : ∀ disk, (fileClose disk (NewMachine.wStart env w)).heap = w.heap := by
    intro disk
    simp only [fileClose, NewMachine.wStart, NewMachine.wTap,
      emit_heap, setupDisk_heap, NewMachine.wDisk]
  have hw4 : (NewMachine.wTap env w).heap = w.heap := by
    simp only [NewMachine.wTap, emit_heap, setupDisk_heap, NewMachine.wDisk]
  rcases newMachine_cases env qc w with
    ⟨e, _, hn⟩ | ⟨disk, e, _, _, hn⟩ | ⟨disk, tap, _, _, ⟨e, _, hn⟩ | ⟨proc, _,
      ⟨p, _, hn⟩ | ⟨out, e, _, hn⟩ | ⟨out, _, _, hn⟩ | ⟨_, hn⟩⟩⟩
  all_goals rw [hn]
  · simpa only [hw4] using hwf
  · simpa only [hw3] using hwf
  · simpa only [hw2] using hwf
  · simpa only [hw1] using hwf
  · simpa only [hw] using hwf
  · simpa only [hw] using hwf
  · simp only [fileClose, tapClose, emit_heap]
    exact goAppend_WF env w.heap qc.machines _ hwf

/-! ## Shape of the trace of a run that got a disk and a tap -/

theorem isVerification_of_isRemote (e : Event) (h : e.isRemote = true) :
    e.isVerification = true := by
  cases e <;> simp_all [Event.isVerification, Event.isRemote]

theorem wTap_trace (env : Env) (w : World) :
    ∃ staging : List Event,
      (NewMachine.wTap env w).trace = w.trace ++ .getInterface "br0" :: staging ∧
      ∀ e ∈ staging, e.isStaging = true := by
  obtain ⟨evs, h, hs⟩ := setupDisk_world env (NewMachine.wDisk w)
  refine ⟨evs, ?_, hs⟩
  unfold NewMachine.wTap
  rw [h]
  simp [NewMachine.wDisk, World.emit]

/-- A run that obtained a disk and a tap calls `CommandStart`, then performs
only events of the readiness check and of destroying the process, and ends by
closing the tap and then the disk. -/
theorem newMachine_trace (env : Env) (qc : qemuCluster) (w : World) (disk : File)
    (tap : TunTap)
    (hdisk : (setupDisk env (NewMachine.wDisk w)).1 = .ok disk)
    (htap : env.newTap (NewMachine.wTap env w).trace "br0" = .ok tap) :
    ∃ mid : List Event,
      (qc.NewMachine env w).2.2.trace =
        (NewMachine.wTap env w).trace ++
          [.newTap "br0", .commandStart (NewMachine.cmd env w disk tap)] ++ mid ++
          [.tapClose tap, .fileClose disk] ∧
      ∀ e ∈ mid, e.isVerification = true := by
  have hpre : (NewMachine.wSSH env w disk tap).trace =
      (NewMachine.wTap env w).trace ++
        [.newTap "br0", .commandStart (NewMachine.cmd env w disk tap)] := by
    simp [NewMachine.wSSH, NewMachine.wStart, World.emit]
  cases hstart : env.commandStart (NewMachine.wStart env w).trace
      (NewMachine.cmd env w disk tap) with
  | error err =>
    refine ⟨[], ?_, by simp⟩
    rw [newMachine_start_error env qc w disk tap err hdisk htap hstart]
    simp [fileClose, tapClose, World.emit, hpre]
  | ok proc =>
    obtain ⟨remote, hr, hrem⟩ := ssh_world env (NewMachine.started env w disk tap proc)
      NewMachine.probe (NewMachine.wSSH env w disk tap)
    have hd : (NewMachine.wDestroyed env w disk tap proc).trace =
        (NewMachine.wTap env w).trace ++
          [.newTap "br0", .commandStart (NewMachine.cmd env w disk tap)] ++
          (remote ++ [.processKill proc,
            .cmdWait { NewMachine.cmd env w disk tap with Process := some proc }]) := by
      simp only [NewMachine.wDestroyed, NewMachine.sshRun, hr]
      simp [World.emit, hpre]
    have hv : ∀ e ∈ remote ++ [Event.processKill proc,
        .cmdWait { NewMachine.cmd env w disk tap with Process := some proc }],
        e.isVerification = true := by
      intro e he
      rcases List.mem_append.1 he with he | he
      · exact isVerification_of_isRemote e (hrem e he)
      · simp only [List.mem_cons, List.mem_singleton, List.not_mem_nil, or_false] at he
        rcases he with rfl | rfl <;> rfl
    cases hssh : (NewMachine.sshRun env w disk tap proc).1 with
    | panicked p =>
      refine ⟨remote, ?_, fun e he => isVerification_of_isRemote e (hrem e he)⟩
      rw [newMachine_ssh_panic env qc w disk tap proc p hdisk htap hstart hssh]
      simp only [fileClose, tapClose, NewMachine.sshRun, hr]
      simp [World.emit, hpre]
    | returned r =>
      obtain ⟨out, oerr⟩ := r
      cases oerr with
      | some err =>
        refine ⟨_, ?_, hv⟩
        rw [newMachine_ssh_error env qc w disk tap proc out err hdisk htap hstart hssh]
        simp only [fileClose, tapClose, emit_trace, hd]
        simp
      | none =>
        by_cases hne : out = idCoreos
        · subst hne
          refine ⟨remote, ?_, fun e he => isVerification_of_isRemote e (hrem e he)⟩
          rw [newMachine_verified env qc w disk tap proc hdisk htap hstart hssh]
          simp only [fileClose, tapClose, NewMachine.sshRun, hr]
          simp [World.emit, hpre]
        · refine ⟨_, ?_, hv⟩
          rw [newMachine_mismatch env qc w disk tap proc out hdisk htap hstart hssh hne]
          simp only [fileClose, tapClose, emit_trace, hd]
          simp

/-! ## Frames for the slice memory -/

theorem read_append_left (h : Heap) (s : Slice) (a : List (Option qemuMachine))
    (hwf : s.WF h) : s.read (h ++ [a]) = s.read h := by
  unfold Slice.WF at hwf
  unfold Slice.read
  cases hp : s.ptr with
  | none => rfl
  | some p =>
    simp only [hp] at hwf ⊢
    rw [heap_getD_append_left h p a hwf.1]

theorem write_frame (h : Heap) (s t : Slice) (i : Nat) (x : Option qemuMachine) (p : Nat)
    (hs : s.ptr = some p) (ht : t.ptr ≠ some p) :
    t.read (s.write h i x) = t.read h := by
  unfold Slice.write Slice.read
  simp only [hs]
  cases hq : t.ptr with
  | none => rfl
  | some q =>
    have hpq : p ≠ q := by
      intro e
      apply ht
      rw [hq, e]
    simp only
    split
    · rw [heap_getD_set_ne h p q _ hpq]
    · rfl

theorem newMachine_heap (env : Env) (qc : qemuCluster) (w : World) :
    (qc.NewMachine env w).2.2.heap = w.heap ∨
    ∃ x, (qc.NewMachine env w).2.2.heap = (goAppend env w.heap qc.machines x).2 := by
  have hw : ∀ disk tap proc,
      (fileClose disk (tapClose tap (NewMachine.wDestroyed env w disk tap proc))).heap
        = w.heap := by
    intro disk tap proc
    simp only [fileClose, tapClose, NewMachine.wDestroyed, emit_heap, sshRun_heap]
  have hw1 : ∀ disk tap proc,
      (fileClose disk (tapClose tap (NewMachine.sshRun env w disk tap proc).2)).heap
        = w.heap := by
    intro disk tap proc
    simp only [fileClose, tapClose, emit_heap, sshRun_heap]
  have hw2 : ∀ disk tap,
      (fileClose disk (tapClose tap (NewMachine.wSSH env w disk tap))).heap = w.heap := by
    intro disk tap
    simp only [fileClose, tapClose, NewMachine.wSSH, NewMachine.wStart, NewMachine.wTap,
      emit_heap, setupDisk_heap, NewMachine.wDisk]
  have hw3 : ∀ disk, (fileClose disk (NewMachine.wStart env w)).heap = w.heap := by
    intro disk
    simp only [fileClose, NewMachine.wStart, NewMachine.wTap,
      emit_heap, setupDisk_heap, NewMachine.wDisk]
  have hw4 : (NewMachine.wTap env w).heap = w.heap := by
    simp only [NewMachine.wTap, emit_heap, setupDisk_heap, NewMachine.wDisk]
  rcases newMachine_cases env qc w with
    ⟨e, _, hn⟩ | ⟨disk, e, _, _, hn⟩ | ⟨disk, tap, _, _, ⟨e, _, hn⟩ | ⟨proc, _,
      ⟨p, _, hn⟩ | ⟨out, e, _, hn⟩ | ⟨out, _, _, hn⟩ | ⟨_, hn⟩⟩⟩
  all_goals rw [hn]
  · exact Or.inl hw4
  · exact Or.inl (hw3 disk)
  · exact Or.inl (hw2 disk tap)
  · exact Or.inl (hw1 disk tap proc)
  · exact Or.inl (hw disk tap proc)
  · exact Or.inl (hw disk tap proc)
  · exact Or.inr ⟨_, rfl⟩

/-! ## Invariants of reachable states -/

theorem machineDestroy_heap (env : Env) (qm : qemuMachine) (w : World) :
    (qm.Destroy env w).2.heap = w.heap := by
  unfold qemuMachine.Destroy
  cases qm.qemu with
  | none => rfl
  | some cmd =>
    cases hp : cmd.Process with
    | none => simp only [hp]
    | some proc => simp only [hp, processKill, cmdWait, emit_heap]

theorem destroyEach_heap (env : Env) (ms : List (Option qemuMachine)) (w : World) :
    (destroyEach env ms w).2.heap = w.heap := by
  induction ms generalizing w with
  | nil => rfl
  | cons m rest ih =>
    cases m with
    | none => rfl
    | some qm =>
      simp only [destroyEach]
      have hd := machineDestroy_heap env qm w
      rcases hq : qm.Destroy env w with ⟨r, w1⟩
      rw [hq] at hd
      cases r with
      | panicked p => exact hd
      | returned a =>
        simp only
        rw [ih w1]
        exact hd

theorem clusterDestroy_heap (env : Env) (qc : qemuCluster) (w : World) :
    (qc.Destroy env w).2.heap = w.heap := by
  unfold qemuCluster.Destroy
  have hd := destroyEach_heap env (qc.machines.read w.heap) w
  rcases hq : destroyEach env (qc.machines.read w.heap) w with ⟨r, w1⟩
  rw [hq] at hd
  cases r with
  | panicked p => exact hd
  | returned a => simpa only [localDestroy, emit_heap] using hd

/-- In every reachable state the slice header of the cluster is consistent
with the slice memory and every machine of the list has been started. -/
theorem reachable_invariant (qc : qemuCluster) (w : World) (h : Reachable qc w) :
    qc.machines.WF w.heap ∧ allStarted (qc.machines.read w.heap) = true := by
  induction h with
  | fresh env w qc hq =>
    unfold NewQemuCluster at hq ⊢
    cases hn : (newLocalCluster env w).1 with
    | some err =>
      rcases hp : newLocalCluster env w with ⟨r, w1⟩
      rw [hp] at hn hq
      simp only at hn
      subst hn
      simp at hq
    | none =>
      rcases hp : newLocalCluster env w with ⟨r, w1⟩
      rw [hp] at hn hq
      simp only at hn
      subst hn
      simp only [Except.ok.injEq] at hq
      subst hq
      exact ⟨by simp [Slice.WF, freshCluster], by simp [allStarted, Slice.read, freshCluster]⟩
  | newMachine env qc w _ ih =>
    exact ⟨newMachine_WF env qc w ih.1, newMachine_allStarted env qc w ih.1 ih.2⟩
  | machines qc w _ ih =>
    rw [machines_eq qc w ih.1]
    simp only
    refine ⟨?_, by rw [read_append_left _ _ _ ih.1]; exact ih.2⟩
    have hwf := ih.1
    unfold Slice.WF at hwf ⊢
    cases hp : qc.machines.ptr with
    | none => simpa only [hp] using hwf
    | some p =>
      simp only [hp] at hwf ⊢
      rw [heap_getD_append_left _ _ _ hwf.1]
      exact ⟨by simp; omega, hwf.2⟩
  | destroy env qc w _ ih =>
    rw [clusterDestroy_heap]
    exact ih
  | machineDestroy env qc w qm _ ih =>
    rw [machineDestroy_heap]
    exact ih
  | machineSSH env qc w qm cmd _ ih =>
    rw [ssh_heap]
    exact ih

/-! ## The library function `bytes.TrimSpace` -/

theorem startsWith_iff (bs e : Bytes) : startsWith bs e = true ↔ ∃ r, bs = e ++ r := by
  induction e generalizing bs with
  | nil => simp [startsWith]
  | cons c e ih =>
    cases bs with
    | nil => simp [startsWith]
    | cons b bs =>
      simp only [startsWith, Bool.and_eq_true, beq_iff_eq, ih, List.cons_append,
        List.cons.injEq]
      constructor
      · rintro ⟨rfl, r, rfl⟩
        exact ⟨r, rfl, rfl⟩
      · rintro ⟨r, rfl, rfl⟩
        exact ⟨rfl, r, rfl⟩

theorem leadingWidth_some (table : List Bytes) (bs : Bytes) (k : Nat)
    (h : leadingWidth table bs = some k) :
    ∃ e, e ∈ table ∧ e.length = k ∧ bs = e ++ bs.drop k := by
  unfold leadingWidth at h
  cases hf : table.find? (startsWith bs) with
  | none => simp [hf] at h
  | some e =>
    simp only [hf, Option.map_some', Option.some.injEq] at h
    have hm := List.mem_of_find?_eq_some hf
    have hs := List.find?_some hf
    obtain ⟨r, hr⟩ := (startsWith_iff bs e).1 hs
    refine ⟨e, hm, h, ?_⟩
    subst h
    rw [hr]
    simp

theorem leadingWidth_none (table : List Bytes) (bs : Bytes) :
    leadingWidth table bs = none ↔ ∀ e ∈ table, startsWith bs e = false := by
  unfold leadingWidth
  simp [List.find?_eq_none]

theorem stripN_decomp (table : List Bytes) (n : Nat) (bs : Bytes) :
    ∃ pre, Concat table pre ∧ bs = pre ++ stripN table n bs := by
  induction n generalizing bs with
  | zero => exact ⟨[], .nil, rfl⟩
  | succ n ih =>
    simp only [stripN]
    cases hl : leadingWidth table bs with
    | none => exact ⟨[], .nil, rfl⟩
    | some k =>
      obtain ⟨e, he, hk, hb⟩ := leadingWidth_some table bs k hl
      obtain ⟨pre, hpre, hd⟩ := ih (bs.drop k)
      refine ⟨e ++ pre, .cons e pre he hpre, ?_⟩
      simp only
      rw [List.append_assoc, ← hd]
      exact hb

theorem stripN_done (table : List Bytes) (hne : ∀ e ∈ table, e ≠ []) (n : Nat) (bs : Bytes)
    (hn : bs.length ≤ n) : leadingWidth table (stripN table n bs) = none := by
  induction n generalizing bs with
  | zero =>
    have : bs = [] := List.length_eq_zero.1 (by omega)
    subst this
    simp only [stripN]
    rw [leadingWidth_none]
    intro e he
    cases e with
    | nil => exact absurd rfl (hne _ he)
    | cons c e => rfl
  | succ n ih =>
    simp only [stripN]
    cases hl : leadingWidth table bs with
    | none => simpa using hl
    | some k =>
      simp only
      obtain ⟨e, he, hk, hb⟩ := leadingWidth_some table bs k hl
      apply ih
      have hpos : 0 < e.length := List.length_pos.2 (hne e he)
      have : bs.length = e.length + (bs.drop k).length := by
        conv_lhs => rw [hb]
        simp
      simp only [List.length_drop] at this ⊢
      omega

theorem Concat_append (table : List Bytes) (a b : Bytes) (ha : Concat table a)
    (hb : Concat table b) : Concat table (a ++ b) := by
  induction ha with
  | nil => simpa using hb
  | cons e rest he _ ih =>
    rw [List.append_assoc]
    exact .cons e _ he ih

theorem Concat_reverse (table : List Bytes) (a : Bytes)
    (ha : Concat (table.map List.reverse) a) : Concat table a.reverse := by
  induction ha with
  | nil => exact .nil
  | cons e rest he _ ih =>
    rw [List.reverse_append]
    obtain ⟨e0, he0, rfl⟩ := List.mem_map.1 he
    rw [List.reverse_reverse]
    have := Concat.cons e0 [] he0 .nil
    rw [List.append_nil] at this
    exact Concat_append table _ _ ih this

theorem spaceEncodings_eq :
    spaceEncodings =
      [[0x09], [0x0A], [0x0B], [0x0C], [0x0D], [0x20],
       [0xC2, 0x85], [0xC2, 0xA0],
       [0xE1, 0x9A, 0x80],
       [0xE2, 0x80, 0x80], [0xE2, 0x80, 0x81], [0xE2, 0x80, 0x82], [0xE2, 0x80, 0x83],
       [0xE2, 0x80, 0x84], [0xE2, 0x80, 0x85], [0xE2, 0x80, 0x86], [0xE2, 0x80, 0x87],
       [0xE2, 0x80, 0x88], [0xE2, 0x80, 0x89], [0xE2, 0x80, 0x8A],
       [0xE2, 0x80, 0xA8], [0xE2, 0x80, 0xA9], [0xE2, 0x80, 0xAF],
       [0xE2, 0x81, 0x9F],
       [0xE3, 0x80, 0x80]] := by
  decide

theorem isSpace_iff (r : Nat) : isSpace r = true ↔ r ∈ spaceRunes := by
  unfold isSpace spaceRunes
  simp only [List.mem_cons, List.mem_singleton, List.not_mem_nil, or_false]
  split
  · simp only [Bool.or_eq_true, beq_iff_eq]
    omega
  · simp only [Bool.or_eq_true, beq_iff_eq, Bool.and_eq_true, decide_eq_true_eq]
    omega

theorem spaceEncodings_ne_nil : ∀ e ∈ spaceEncodings, e ≠ [] := by
  decide

/-- What `TrimSpace` does: it slices off a leading and a trailing part that
are white space only, and what is left neither begins nor ends with white
space. -/
theorem TrimSpace_spec (bs : Bytes) :
    ∃ pre suf, bs = pre ++ TrimSpace bs ++ suf ∧
      WhiteSpace pre ∧ WhiteSpace suf ∧
      hasLeadingSpace (TrimSpace bs) = false ∧ hasTrailingSpace (TrimSpace bs) = false := by
  obtain ⟨pre, hpre, hl⟩ := stripN_decomp spaceEncodings bs.length bs
  have hldone := stripN_done spaceEncodings spaceEncodings_ne_nil bs.length bs (Nat.le_refl _)
  obtain ⟨sufr, hsufr, hr⟩ := stripN_decomp (spaceEncodings.map List.reverse)
    (TrimLeft bs).length (TrimLeft bs).reverse
  have hrne : ∀ e ∈ spaceEncodings.map List.reverse, e ≠ [] := by decide
  have hrdone := stripN_done (spaceEncodings.map List.reverse) hrne
    (TrimLeft bs).length (TrimLeft bs).reverse (by simp)
  have hL : TrimLeft bs = TrimSpace bs ++ sufr.reverse := by
    have := congrArg List.reverse hr
    rw [List.reverse_reverse, List.reverse_append] at this
    exact this
  refine ⟨pre, sufr.reverse, ?_, hpre, Concat_reverse _ _ hsufr, ?_, ?_⟩
  · rw [List.append_assoc, ← hL]
    exact hl
  · rw [leadingWidth_none] at hldone
    unfold hasLeadingSpace
    rw [List.any_eq_false]
    intro e he hs
    have h1 := hldone e he
    obtain ⟨r, hr1⟩ := (startsWith_iff _ _).1 hs
    have : startsWith (stripN spaceEncodings bs.length bs) e = true := by
      rw [startsWith_iff]
      refine ⟨r ++ sufr.reverse, ?_⟩
      have h2 : stripN spaceEncodings bs.length bs = TrimLeft bs := rfl
      rw [h2, hL, hr1, List.append_assoc]
    rw [h1] at this
    exact Bool.noConfusion this
  · rw [leadingWidth_none] at hrdone
    unfold hasTrailingSpace
    rw [List.any_eq_false]
    intro e he hs
    have h1 := hrdone e.reverse (List.mem_map.2 ⟨e, he, rfl⟩)
    have h2 : (TrimSpace bs).reverse =
        stripN (spaceEncodings.map List.reverse) (TrimLeft bs).length (TrimLeft bs).reverse := by
      simp [TrimSpace, TrimRight]
    rw [h2, h1] at hs
    exact Bool.noConfusion hs

/-! ## Claims -/

/-- C1: `NewMachine` returns a machine with a nil error exactly when disk
staging, tap creation, process start and the SSH call all succeed and the
(whitespace-trimmed) output returned by the SSH call equals the bytes of
`ID=coreos`; the machine list of the cluster is then the previous list with the
returned machine appended at the end. -/
theorem C1_newMachine_success (env : Env) (qc : qemuCluster) (w : World)
    (hwf : qc.machines.WF w.heap) :
    ((∃ qm, (qc.NewMachine env w).1 = .returned (some qm, none)) ↔
      ∃ disk tap proc,
        (setupDisk env (NewMachine.wDisk w)).1 = .ok disk ∧
        env.newTap (NewMachine.wTap env w).trace "br0" = .ok tap ∧
        env.commandStart (NewMachine.wStart env w).trace (NewMachine.cmd env w disk tap)
          = .ok proc ∧
        (NewMachine.sshRun env w disk tap proc).1 = .returned (idCoreos, none)) ∧
    (∀ qm, (qc.NewMachine env w).1 = .returned (some qm, none) →
      (qc.NewMachine env w).2.1.machines.read (qc.NewMachine env w).2.2.heap =
        qc.machines.read w.heap ++ [some qm]) := by
  have key : ∀ qm, (qc.NewMachine env w).1 = .returned (some qm, none) →
      ∃ disk tap proc,
        ((setupDisk env (NewMachine.wDisk w)).1 = .ok disk ∧
        env.newTap (NewMachine.wTap env w).trace "br0" = .ok tap ∧
        env.commandStart (NewMachine.wStart env w).trace (NewMachine.cmd env w disk tap)
          = .ok proc ∧
        (NewMachine.sshRun env w disk tap proc).1 = .returned (idCoreos, none)) ∧
        qm = NewMachine.started env w disk tap proc := by
    intro qm hqm
    cases hdisk : (setupDisk env (NewMachine.wDisk w)).1 with
    | error err =>
      rw [newMachine_disk_error env qc w err hdisk] at hqm
      simp at hqm
    | ok disk =>
      cases htap : env.newTap (NewMachine.wTap env w).trace "br0" with
      | error err =>
        rw [newMachine_tap_error env qc w disk err hdisk htap] at hqm
        simp at hqm
      | ok tap =>
        cases hstart : env.commandStart (NewMachine.wStart env w).trace
            (NewMachine.cmd env w disk tap) with
        | error err =>
          rw [newMachine_start_error env qc w disk tap err hdisk htap hstart] at hqm
          simp at hqm
        | ok proc =>
          cases hssh : (NewMachine.sshRun env w disk tap proc).1 with
          | panicked p =>
            rw [newMachine_ssh_panic env qc w disk tap proc p hdisk htap hstart hssh] at hqm
            simp at hqm
          | returned r =>
            obtain ⟨out, oerr⟩ := r
            cases oerr with
            | some err =>
              rw [newMachine_ssh_error env qc w disk tap proc out err hdisk htap hstart hssh]
                at hqm
              simp at hqm
            | none =>
              by_cases hne : out = idCoreos
              · subst hne
                rw [newMachine_verified env qc w disk tap proc hdisk htap hstart hssh] at hqm
                simp only [Run.returned.injEq, Prod.mk.injEq, Option.some.injEq, and_true]
                  at hqm
                refine ⟨disk, tap, proc, ⟨?_, ?_, ?_, ?_⟩, hqm.symm⟩ <;>
                  first | rfl | assumption
              · rw [newMachine_mismatch env qc w disk tap proc out hdisk htap hstart hssh hne]
                  at hqm
                simp at hqm
  refine ⟨⟨?_, ?_⟩, ?_⟩
  · rintro ⟨qm, hqm⟩
    obtain ⟨disk, tap, proc, h, _⟩ := key qm hqm
    exact ⟨disk, tap, proc, h⟩
  · rintro ⟨disk, tap, proc, hdisk, htap, hstart, hssh⟩
    exact ⟨_, by rw [newMachine_verified env qc w disk tap proc hdisk htap hstart hssh]⟩
  · intro qm hqm
    obtain ⟨disk, tap, proc, ⟨hdisk, htap, hstart, hssh⟩, rfl⟩ := key qm hqm
    rw [newMachine_verified env qc w disk tap proc hdisk htap hstart hssh]
    simp only [fileClose, tapClose, emit_heap, sshRun_heap]
    exact goAppend_read env w.heap qc.machines _ hwf

/-- Witness for C1 on the sample environment: the first machine of a new
cluster is created and becomes the only element of the machine list. -/
theorem C1_newMachine_success_witness :
    freshCluster.machines.WF World.init.heap ∧
    (freshCluster.NewMachine sampleEnv World.init).1 =
      .returned (some (NewMachine.started sampleEnv World.init { fd := 11 }
        { File := { fd := 12 }, Name := "tap0" } { pid := 4006 }), none) ∧
    (freshCluster.NewMachine sampleEnv World.init).2.1.machines.read
        (freshCluster.NewMachine sampleEnv World.init).2.2.heap =
      [] ++ [some (NewMachine.started sampleEnv World.init { fd := 11 }
        { File := { fd := 12 }, Name := "tap0" } { pid := 4006 })] :=
  ⟨by decide, by rfl,
    (C1_newMachine_success sampleEnv freshCluster World.init (by decide)).2 _ (by rfl)⟩

/-- C2: whenever `NewMachine` returns an error, it returns no machine and the
cluster with its machine list is exactly as before the call; and a failure of
disk staging, tap creation, process start or the SSH call makes `NewMachine`
return that very error, while an identity mismatch makes it return an error of
its own. -/
theorem C2_newMachine_failure (env : Env) (qc : qemuCluster) (w : World) :
    (∀ m err, (qc.NewMachine env w).1 = .returned (m, some err) →
      m = none ∧ (qc.NewMachine env w).2.1 = qc ∧ (qc.NewMachine env w).2.2.heap = w.heap ∧
      (qc.NewMachine env w).2.1.machines.read (qc.NewMachine env w).2.2.heap =
        qc.machines.read w.heap) ∧
    (∀ err, (setupDisk env (NewMachine.wDisk w)).1 = .error err →
      (qc.NewMachine env w).1 = .returned (none, some err)) ∧
    (∀ disk err, (setupDisk env (NewMachine.wDisk w)).1 = .ok disk →
      env.newTap (NewMachine.wTap env w).trace "br0" = .error err →
      (qc.NewMachine env w).1 = .returned (none, some err)) ∧
    (∀ disk tap err, (setupDisk env (NewMachine.wDisk w)).1 = .ok disk →
      env.newTap (NewMachine.wTap env w).trace "br0" = .ok tap →
      env.commandStart (NewMachine.wStart env w).trace (NewMachine.cmd env w disk tap)
        = .error err →
      (qc.NewMachine env w).1 = .returned (none, some err)) ∧
    (∀ disk tap proc out err, (setupDisk env (NewMachine.wDisk w)).1 = .ok disk →
      env.newTap (NewMachine.wTap env w).trace "br0" = .ok tap →
      env.commandStart (NewMachine.wStart env w).trace (NewMachine.cmd env w disk tap)
        = .ok proc →
      (NewMachine.sshRun env w disk tap proc).1 = .returned (out, some err) →
      (qc.NewMachine env w).1 = .returned (none, some err)) ∧
    (∀ disk tap proc out, (setupDisk env (NewMachine.wDisk w)).1 = .ok disk →
      env.newTap (NewMachine.wTap env w).trace "br0" = .ok tap →
      env.commandStart (NewMachine.wStart env w).trace (NewMachine.cmd env w disk tap)
        = .ok proc →
      (NewMachine.sshRun env w disk tap proc).1 = .returned (out, none) →
      out ≠ idCoreos →
      (qc.NewMachine env w).1 =
        .returned (none, some (.errorf "Unexpected SSH output: %s" out))) := by
  refine ⟨?_, ?_, ?_, ?_, ?_, ?_⟩
  · intro m err hm
    have hw : ∀ disk tap proc,
        (fileClose disk (tapClose tap (NewMachine.wDestroyed env w disk tap proc))).heap
          = w.heap := by
      intro disk tap proc
      simp only [fileClose, tapClose, NewMachine.wDestroyed, emit_heap, sshRun_heap]
    have hw2 : ∀ disk tap,
        (fileClose disk (tapClose tap (NewMachine.wSSH env w disk tap))).heap = w.heap := by
      intro disk tap
      simp only [fileClose, tapClose, NewMachine.wSSH, NewMachine.wStart, NewMachine.wTap,
        emit_heap, setupDisk_heap, NewMachine.wDisk]
    have hw3 : ∀ disk, (fileClose disk (NewMachine.wStart env w)).heap = w.heap := by
      intro disk
      simp only [fileClose, NewMachine.wStart, NewMachine.wTap,
        emit_heap, setupDisk_heap, NewMachine.wDisk]
    have hw4 : (NewMachine.wTap env w).heap = w.heap := by
      simp only [NewMachine.wTap, emit_heap, setupDisk_heap, NewMachine.wDisk]
    rcases newMachine_cases env qc w with
      ⟨e, _, h⟩ | ⟨disk, e, _, _, h⟩ | ⟨disk, tap, _, _, ⟨e, _, h⟩ | ⟨proc, _,
        ⟨p, _, h⟩ | ⟨out, e, _, h⟩ | ⟨out, _, _, h⟩ | ⟨_, h⟩⟩⟩
    all_goals rw [h] at hm ⊢
    all_goals simp only [Run.returned.injEq, Prod.mk.injEq, Option.some.injEq, reduceCtorEq,
      and_false, false_and] at hm
    · exact ⟨hm.1.symm, rfl, hw4, by rw [hw4]⟩
    · exact ⟨hm.1.symm, rfl, hw3 disk, by rw [hw3]⟩
    · exact ⟨hm.1.symm, rfl, hw2 disk tap, by rw [hw2]⟩
    · exact ⟨hm.1.symm, rfl, hw disk tap proc, by rw [hw]⟩
    · exact ⟨hm.1.symm, rfl, hw disk tap proc, by rw [hw]⟩
  · intro err h
    rw [newMachine_disk_error env qc w err h]
  · intro disk err h1 h2
    rw [newMachine_tap_error env qc w disk err h1 h2]
  · intro disk tap err h1 h2 h3
    rw [newMachine_start_error env qc w disk tap err h1 h2 h3]
  · intro disk tap proc out err h1 h2 h3 h4
    rw [newMachine_ssh_error env qc w disk tap proc out err h1 h2 h3 h4]
  · intro disk tap proc out h1 h2 h3 h4 h5
    rw [newMachine_mismatch env qc w disk tap proc out h1 h2 h3 h4 h5]

/-- Witness for C2: a missing base image and a guest of another distribution. -/
theorem C2_newMachine_failure_witness :
    ((setupDisk missingImageEnv (NewMachine.wDisk World.init)).1 = .error (.ext 2) ∧
      (freshCluster.NewMachine missingImageEnv World.init).1 =
        .returned (none, some (.ext 2))) ∧
    ((freshCluster.NewMachine otherGuestEnv World.init).1 =
        .returned (none, some (.errorf "Unexpected SSH output: %s"
          (bytesOf "ID=othernix"))) ∧
      (freshCluster.NewMachine otherGuestEnv World.init).2.1 = freshCluster ∧
      (freshCluster.NewMachine otherGuestEnv World.init).2.2.heap = World.init.heap) :=
  ⟨⟨by rfl, (C2_newMachine_failure missingImageEnv freshCluster World.init).2.1 _ (by rfl)⟩,
    by rfl,
    ((C2_newMachine_failure otherGuestEnv freshCluster World.init).1 _ _ (by rfl)).2.1,
    ((C2_newMachine_failure otherGuestEnv freshCluster World.init).1 _ _ (by rfl)).2.2.1⟩

/-- A run of `NewMachine` that returns an error leaves nothing behind.  When
disk staging fails, the run ends there: every file staging opened is closed
again, no tap is created and no process is started.  When tap creation fails
the staged disk is closed.  When the process cannot be started the tap and the
disk are closed.  When the SSH call returns an error or a mismatching output,
the process is killed and waited for and then the tap and the disk are closed,
each exactly once. -/
theorem newMachine_cleanup_returned (env : Env) (qc : qemuCluster) (w : World) :
    (∀ err, (setupDisk env (NewMachine.wDisk w)).1 = .error err →
      (qc.NewMachine env w).2.2.trace = (NewMachine.wTap env w).trace ∧
      ((NewMachine.wTap env w).trace =
          w.trace ++ [.getInterface "br0", .osOpen env.qemuImage] ∨
        (∃ src, (NewMachine.wTap env w).trace =
          w.trace ++ [.getInterface "br0", .osOpen env.qemuImage, .tempFile "",
            .fileClose src]) ∨
        (∃ src dst, (NewMachine.wTap env w).trace =
          w.trace ++ [.getInterface "br0", .osOpen env.qemuImage, .tempFile "",
            .ioCopy dst src, .fileClose dst, .fileClose src]))) ∧
    (∀ disk err, (setupDisk env (NewMachine.wDisk w)).1 = .ok disk →
      env.newTap (NewMachine.wTap env w).trace "br0" = .error err →
      (qc.NewMachine env w).2.2.trace =
        (NewMachine.wTap env w).trace ++ [.newTap "br0", .fileClose disk]) ∧
    (∀ disk tap err, (setupDisk env (NewMachine.wDisk w)).1 = .ok disk →
      env.newTap (NewMachine.wTap env w).trace "br0" = .ok tap →
      env.commandStart (NewMachine.wStart env w).trace (NewMachine.cmd env w disk tap)
        = .error err →
      (qc.NewMachine env w).2.2.trace =
        (NewMachine.wTap env w).trace ++
          [.newTap "br0", .commandStart (NewMachine.cmd env w disk tap),
            .tapClose tap, .fileClose disk]) ∧
    (∀ disk tap proc out, (setupDisk env (NewMachine.wDisk w)).1 = .ok disk →
      env.newTap (NewMachine.wTap env w).trace "br0" = .ok tap →
      env.commandStart (NewMachine.wStart env w).trace (NewMachine.cmd env w disk tap)
        = .ok proc →
      ((∃ err, (NewMachine.sshRun env w disk tap proc).1 = .returned (out, some err)) ∨
        ((NewMachine.sshRun env w disk tap proc).1 = .returned (out, none) ∧
          out ≠ idCoreos)) →
      ∃ remote rest : List Event,
        (qc.NewMachine env w).2.2.trace =
          (NewMachine.wTap env w).trace ++
            [.newTap "br0", .commandStart (NewMachine.cmd env w disk tap)] ++ rest ∧
        rest = remote ++
          [.processKill proc,
            .cmdWait { NewMachine.cmd env w disk tap with Process := some proc },
            .tapClose tap, .fileClose disk] ∧
        (∀ e ∈ remote, e.isRemote = true) ∧
        rest.count (.processKill proc) = 1 ∧
        rest.count (.cmdWait { NewMachine.cmd env w disk tap with Process := some proc }) = 1 ∧
        rest.count (.tapClose tap) = 1 ∧
        rest.count (.fileClose disk) = 1) := by
  refine ⟨?_, ?_, ?_, ?_⟩
  · intro err h
    refine ⟨by rw [newMachine_disk_error env qc w err h], ?_⟩
    unfold NewMachine.wTap NewMachine.wDisk at *
    unfold setupDisk at h ⊢
    simp only [osOpen, tempFile, ioCopy, fileClose, World.emit] at h ⊢
    cases ho : env.osOpen (w.trace ++ [Event.getInterface "br0"]) env.qemuImage with
    | error e => simp
    | ok src =>
      rw [ho] at h
      simp only at h ⊢
      cases ht : env.tempFile (w.trace ++ [Event.getInterface "br0"] ++
          [Event.osOpen env.qemuImage]) "" with
      | error e =>
        right; left
        exact ⟨src, by simp⟩
      | ok dst =>
        rw [ht] at h
        simp only at h ⊢
        cases hc : env.ioCopy (w.trace ++ [Event.getInterface "br0"] ++
            [Event.osOpen env.qemuImage] ++ [Event.tempFile ""]) dst src with
        | some e =>
          right; right
          exact ⟨src, dst, by simp⟩
        | none =>
          rw [hc] at h
          simp at h
  · intro disk err h1 h2
    rw [newMachine_tap_error env qc w disk err h1 h2]
    simp [fileClose, NewMachine.wStart, World.emit]
  · intro disk tap err h1 h2 h3
    rw [newMachine_start_error env qc w disk tap err h1 h2 h3]
    simp [fileClose, tapClose, NewMachine.wSSH, NewMachine.wStart, World.emit]
  · intro disk tap proc out h1 h2 h3 h4
    obtain ⟨remote, hr, hrem⟩ := ssh_world env (NewMachine.started env w disk tap proc)
      NewMachine.probe (NewMachine.wSSH env w disk tap)
    have hfin : (qc.NewMachine env w).2.2 =
        fileClose disk (tapClose tap (NewMachine.wDestroyed env w disk tap proc)) := by
      rcases h4 with ⟨err, h4⟩ | ⟨h4, hne⟩
      · rw [newMachine_ssh_error env qc w disk tap proc out err h1 h2 h3 h4]
      · rw [newMachine_mismatch env qc w disk tap proc out h1 h2 h3 h4 hne]
    have c1 : remote.count (.processKill proc) = 0 :=
      List.count_eq_zero.2 fun hm => by simpa [Event.isRemote] using hrem _ hm
    have c2 : remote.count
        (.cmdWait { NewMachine.cmd env w disk tap with Process := some proc }) = 0 :=
      List.count_eq_zero.2 fun hm => by simpa [Event.isRemote] using hrem _ hm
    have c3 : remote.count (.tapClose tap) = 0 :=
      List.count_eq_zero.2 fun hm => by simpa [Event.isRemote] using hrem _ hm
    have c4 : remote.count (.fileClose disk) = 0 :=
      List.count_eq_zero.2 fun hm => by simpa [Event.isRemote] using hrem _ hm
    refine ⟨remote, _, ?_, rfl, hrem, ?_, ?_, ?_, ?_⟩
    · rw [hfin]
      simp only [fileClose, tapClose, NewMachine.wDestroyed, NewMachine.sshRun, hr]
      simp [NewMachine.wSSH, NewMachine.wStart, World.emit]
    · simp [List.count_append, c1, List.count_cons]
    · simp [List.count_append, c2, List.count_cons]
    · simp [List.count_append, c3, List.count_cons]
    · simp [List.count_append, c4, List.count_cons]

/-- The guest of another distribution is killed and waited for, then the tap
and the disk are closed. -/
theorem newMachine_cleanup_returned_example :
    ∃ remote rest : List Event,
      (freshCluster.NewMachine otherGuestEnv World.init).2.2.trace =
        (NewMachine.wTap otherGuestEnv World.init).trace ++
          [.newTap "br0", .commandStart (NewMachine.cmd otherGuestEnv World.init
            { fd := 11 } { File := { fd := 12 }, Name := "tap0" })] ++ rest ∧
      rest = remote ++
        [.processKill { pid := 4006 },
          .cmdWait { NewMachine.cmd otherGuestEnv World.init { fd := 11 }
            { File := { fd := 12 }, Name := "tap0" } with Process := some { pid := 4006 } },
          .tapClose { File := { fd := 12 }, Name := "tap0" }, .fileClose { fd := 11 }] ∧
      (∀ e ∈ remote, e.isRemote = true) ∧
      rest.count (.processKill { pid := 4006 }) = 1 ∧
      rest.count (.cmdWait { NewMachine.cmd otherGuestEnv World.init { fd := 11 }
        { File := { fd := 12 }, Name := "tap0" } with Process := some { pid := 4006 } }) = 1 ∧
      rest.count (.tapClose { File := { fd := 12 }, Name := "tap0" }) = 1 ∧
      rest.count (.fileClose { fd := 11 }) = 1 :=
  (newMachine_cleanup_returned otherGuestEnv freshCluster World.init).2.2.2
    { fd := 11 } { File := { fd := 12 }, Name := "tap0" } { pid := 4006 }
    (bytesOf "ID=othernix")
    (by rfl) (by rfl) (by rfl) (Or.inr ⟨by rfl, by decide⟩)

/-- C3: the failing run that is not cleaned up.  On an interface without a
DHCPv4 lease the disk, the tap and the process 4006 are created, `NewMachine`
fails by the panic of `IP` inside the SSH call, and the two deferred closes are
all that follows: the process is neither killed nor waited for and survives
the call.  On the sibling paths of a failed readiness check, here an SSH error
and a mismatch, the same process is killed and waited for. -/
theorem C3_panic_run_leaves_process :
    noLeaseEnv.commandStart (NewMachine.wStart noLeaseEnv World.init).trace
      (NewMachine.cmd noLeaseEnv World.init { fd := 11 }
        { File := { fd := 12 }, Name := "tap0" }) = .ok { pid := 4006 } ∧
    (freshCluster.NewMachine noLeaseEnv World.init).1 = .panicked (.indexOutOfRange 0 0) ∧
    (freshCluster.NewMachine noLeaseEnv World.init).2.2.trace =
      [.getInterface "br0", .osOpen "coreos-v1.img", .tempFile "",
        .ioCopy { fd := 11 } { fd := 10 }, .fileClose { fd := 10 }, .newTap "br0",
        .commandStart (NewMachine.cmd noLeaseEnv World.init { fd := 11 }
          { File := { fd := 12 }, Name := "tap0" }),
        .tapClose { File := { fd := 12 }, Name := "tap0" }, .fileClose { fd := 11 }] ∧
    Event.processKill { pid := 4006 } ∉
      (freshCluster.NewMachine noLeaseEnv World.init).2.2.trace ∧
    (freshCluster.NewMachine noLeaseEnv World.init).2.2.trace.any Event.isVerification
      = false ∧
    Event.processKill { pid := 4006 } ∈
      (freshCluster.NewMachine unreachableEnv World.init).2.2.trace ∧
    Event.processKill { pid := 4006 } ∈
      (freshCluster.NewMachine otherGuestEnv World.init).2.2.trace :=
  ⟨by rfl, by rfl, by rfl, by decide, by rfl, by decide, by decide⟩

/-- C4: `qemuCluster.Destroy` kills and waits for every machine of the list in
insertion order, whatever the kills and waits report (the events 2i and 2i+1
of the teardown are the kill and the wait of machine i), then releases the
fabric once, after the last machine, and returns the result of that release. -/
theorem C4_cluster_destroy (env : Env) (qc : qemuCluster) (w : World)
    (h : allStarted (qc.machines.read w.heap) = true) :
    qc.Destroy env w =
      (.returned (env.localDestroy (w.trace ++ teardownEvents (qc.machines.read w.heap))),
        { w with trace := w.trace ++ teardownEvents (qc.machines.read w.heap)
            ++ [.localDestroy] }) ∧
    (teardownEvents (qc.machines.read w.heap)).length = 2 * (qc.machines.read w.heap).length ∧
    (∀ i qm cmd proc, (qc.machines.read w.heap)[i]? = some (some qm) →
      qm.qemu = some cmd → cmd.Process = some proc →
      (teardownEvents (qc.machines.read w.heap))[2 * i]? = some (.processKill proc) ∧
      (teardownEvents (qc.machines.read w.heap))[2 * i + 1]? = some (.cmdWait cmd)) ∧
    (teardownEvents (qc.machines.read w.heap) ++ [Event.localDestroy]).count Event.localDestroy = 1 := by
  refine ⟨?_, teardownEvents_length _ h,
    fun i qm cmd proc hi hq hp => teardownEvents_index _ h i qm cmd proc hi hq hp, ?_⟩
  · unfold qemuCluster.Destroy
    rw [destroyEach_allStarted env _ w h]
    simp [localDestroy, World.emit]
  · rw [List.count_append,
      List.count_eq_zero.2 (teardownEvents_no_localDestroy (qc.machines.read w.heap))]
    simp

/-- Witness for C4: two machines, all kills, waits and the release failing. -/
theorem C4_cluster_destroy_witness :
    allStarted (twoMachines.1.machines.read twoMachines.2.heap) = true ∧
    (twoMachines.1.machines.read twoMachines.2.heap).length = 2 ∧
    (twoMachines.1.Destroy stubbornEnv twoMachines.2).1 = .returned (some (.ext 5)) ∧
    (twoMachines.1.Destroy stubbornEnv twoMachines.2).2.trace.drop twoMachines.2.trace.length =
      teardownEvents (twoMachines.1.machines.read twoMachines.2.heap) ++ [.localDestroy] ∧
    (teardownEvents (twoMachines.1.machines.read twoMachines.2.heap)).length = 4 :=
  ⟨by rfl, by rfl,
    by rw [(C4_cluster_destroy stubbornEnv twoMachines.1 twoMachines.2 (by rfl)).1]; rfl,
    by rw [(C4_cluster_destroy stubbornEnv twoMachines.1 twoMachines.2 (by rfl)).1]; simp,
    by rfl⟩

/-- C5: on a machine whose process was started, `qemuMachine.Destroy` kills
the process, then waits for the command, and returns nil whatever the two
calls report; a second `Destroy` on the same machine does the same again and
also returns nil. -/
theorem C5_machine_destroy (env : Env) (qm : qemuMachine) (cmd : Cmd) (proc : Process)
    (w : World) (hq : qm.qemu = some cmd) (hp : cmd.Process = some proc) :
    qm.Destroy env w =
      (.returned none,
        { w with trace := w.trace ++ [.processKill proc, .cmdWait cmd] }) ∧
    qm.Destroy env (qm.Destroy env w).2 =
      (.returned none,
        { w with trace := w.trace ++ [.processKill proc, .cmdWait cmd,
            .processKill proc, .cmdWait cmd] }) := by
  rw [destroy_started env qm cmd proc w hq hp, destroy_started env qm cmd proc _ hq hp]
  simp [World.emit]

/-- Witness for C5: the second kill and the second wait report errors, and
both calls return nil. -/
theorem C5_machine_destroy_witness :
    onceEnv.processKill (firstMachine.Destroy onceEnv World.init).2.trace { pid := 4006 }
      = some (.ext 3) ∧
    (firstMachine.Destroy onceEnv World.init).1 = .returned none ∧
    (firstMachine.Destroy onceEnv (firstMachine.Destroy onceEnv World.init).2).1
      = .returned none :=
  ⟨by rfl,
    by rw [(C5_machine_destroy onceEnv firstMachine _ { pid := 4006 } World.init rfl rfl).1],
    by rw [(C5_machine_destroy onceEnv firstMachine _ { pid := 4006 } World.init rfl rfl).2]⟩

/-- C6: the command built by `NewMachine` is `qemu-system-x86_64` with the 24
arguments below, in which only the id (position 9), the MAC (the tail of
position 19) and the config directory (the tail of position 21) vary; its
inherited files are the disk and the file of the tap, in this order, so that the
disk is descriptor 3 and the tap descriptor 4 as the arguments say.  It is this
command that `NewMachine` starts once the disk and the tap exist. -/
theorem C6_command (env : Env) (qc : qemuCluster) (w : World) (disk : File) (tap : TunTap)
    (hdisk : (setupDisk env (NewMachine.wDisk w)).1 = .ok disk)
    (htap : env.newTap (NewMachine.wTap env w).trace "br0" = .ok tap) :
    (∃ before after, (qc.NewMachine env w).2.2.trace =
      w.trace ++ before ++ .commandStart (NewMachine.cmd env w disk tap) :: after ∧
      (∀ c, Event.commandStart c ∉ before) ∧ ∀ c, Event.commandStart c ∉ after) ∧
    (NewMachine.cmd env w disk tap).name = "qemu-system-x86_64" ∧
    (NewMachine.cmd env w disk tap).args =
      ["-machine", "accel=kvm",
       "-cpu", "host",
       "-smp", "2",
       "-m", "1024",
       "-uuid", env.uuidNew w.trace,
       "-display", "none",
       "-add-fd", "fd=3,set=1",
       "-drive", "file=/dev/fdset/1,media=disk,if=virtio",
       "-netdev", "tap,id=tap,fd=4",
       "-device", "virtio-net,netdev=tap,mac=" ++
          env.hardwareAddrString (env.getInterface w.trace "br0").HardwareAddr,
       "-fsdev", "local,id=cfg,security_model=none,readonly,path=" ++ env.configDirectory,
       "-device", "virtio-9p-pci,fsdev=cfg,mount_tag=config-2"] ∧
    (NewMachine.cmd env w disk tap).args.length = 24 ∧
    (∀ (env2 : Env) (w2 : World) (disk2 : File) (tap2 : TunTap) (i : Nat),
      i ≠ 9 → i ≠ 19 → i ≠ 21 →
      (NewMachine.cmd env w disk tap).args[i]? = (NewMachine.cmd env2 w2 disk2 tap2).args[i]?) ∧
    (NewMachine.cmd env w disk tap).ExtraFiles = [disk, tap.File] ∧
    (NewMachine.cmd env w disk tap).fileAtFd 3 = some disk ∧
    (NewMachine.cmd env w disk tap).fileAtFd 4 = some tap.File := by
  refine ⟨?_, rfl, rfl, rfl, ?_, rfl, rfl, rfl⟩
  · obtain ⟨staging, hst, hstg⟩ := wTap_trace env w
    obtain ⟨mid, hmid, hver⟩ := newMachine_trace env qc w disk tap hdisk htap
    refine ⟨.getInterface "br0" :: staging ++ [.newTap "br0"],
      mid ++ [.tapClose tap, .fileClose disk], ?_, ?_, ?_⟩
    · rw [hmid, hst]
      simp
    · intro c hc
      simp only [List.cons_append, List.mem_cons, List.mem_append, List.mem_singleton,
        reduceCtorEq, false_or, or_false, List.not_mem_nil] at hc
      simpa [Event.isStaging] using hstg _ hc
    · intro c hc
      simp only [List.mem_append, List.mem_cons, List.mem_singleton, reduceCtorEq,
        List.not_mem_nil, or_false] at hc
      simpa [Event.isVerification, Event.isRemote] using hver _ hc
  · intro env2 w2 disk2 tap2 i h9 h19 h21
    simp only [NewMachine.cmd, NewMachine.command, NewMachine.qm]
    rcases i with _ | _ | _ | _ | _ | _ | _ | _ | _ | _ | _ | _ | _ | _ | _ | _ | _ | _ | _ | _ | _ | _ | _ | _ | i <;>
      first | rfl | omega

/-- Witness for C6: the command of the first machine of the sample cluster. -/
theorem C6_command_witness :
    (NewMachine.cmd sampleEnv World.init { fd := 11 }
      { File := { fd := 12 }, Name := "tap0" }).args.length = 24 ∧
    (NewMachine.cmd sampleEnv World.init { fd := 11 }
      { File := { fd := 12 }, Name := "tap0" }).fileAtFd 3 = some { fd := 11 } ∧
    (NewMachine.cmd sampleEnv World.init { fd := 11 }
      { File := { fd := 12 }, Name := "tap0" }).fileAtFd 4 = some { fd := 12 } :=
  ⟨(C6_command sampleEnv freshCluster World.init { fd := 11 }
      { File := { fd := 12 }, Name := "tap0" } (by rfl) (by rfl)).2.2.2.1,
    (C6_command sampleEnv freshCluster World.init { fd := 11 }
      { File := { fd := 12 }, Name := "tap0" } (by rfl) (by rfl)).2.2.2.2.2.2.1,
    (C6_command sampleEnv freshCluster World.init { fd := 11 }
      { File := { fd := 12 }, Name := "tap0" } (by rfl) (by rfl)).2.2.2.2.2.2.2⟩

/-- C7: `Machines` returns a slice of the length of the machine list whose
elements are the machines of the cluster in insertion order.  It is a
snapshot: the call performs no external effect and leaves the list of the
cluster as it was, no assignment to an element of the returned slice and no
append to it changes the list of the cluster, and a later `NewMachine` does not
change the returned slice. -/
theorem C7_machines_snapshot (qc : qemuCluster) (w : World) (hwf : qc.machines.WF w.heap) :
    (qc.Machines w).1.len = qc.machines.len ∧
    (qc.Machines w).1.read (qc.Machines w).2.heap = qc.machines.read w.heap ∧
    (qc.Machines w).2.trace = w.trace ∧
    qc.machines.read (qc.Machines w).2.heap = qc.machines.read w.heap ∧
    (∀ i x, qc.machines.read ((qc.Machines w).1.write (qc.Machines w).2.heap i x) =
      qc.machines.read w.heap) ∧
    (∀ env x, qc.machines.read (goAppend env (qc.Machines w).2.heap (qc.Machines w).1 x).2 =
      qc.machines.read w.heap) ∧
    (∀ env, (qc.Machines w).1.read (qc.NewMachine env (qc.Machines w).2).2.2.heap =
      (qc.Machines w).1.read (qc.Machines w).2.heap) := by
  have hlen := read_length w.heap qc.machines hwf
  have hne : qc.machines.ptr ≠ some w.heap.length := by
    unfold Slice.WF at hwf
    intro e
    simp only [e] at hwf
    omega
  have hkeep : qc.machines.read (w.heap ++ [qc.machines.read w.heap]) =
      qc.machines.read w.heap := read_append_left _ _ _ hwf
  rw [machines_eq qc w hwf]
  refine ⟨rfl, ?_, rfl, hkeep, ?_, ?_, ?_⟩
  · simp only [Slice.read, heap_getD_append_self]
    have := List.take_length (qc.machines.read w.heap)
    rw [hlen] at this
    simpa only [Slice.read] using this
  · intro i x
    rw [write_frame _ _ _ i x w.heap.length rfl hne, hkeep]
  · intro env x
    unfold Slice.WF at hwf
    cases hp : qc.machines.ptr with
    | none =>
      simp only [Slice.read, hp]
    | some p =>
      simp only [hp] at hwf
      rw [goAppend_frame env _ _ qc.machines x p hp (by simp; omega)
        (by simp; omega), hkeep]
  · intro env
    simp only
    rcases newMachine_heap env qc
        { w with heap := w.heap ++ [qc.machines.read w.heap] } with h | ⟨x, h⟩
    · rw [h]
    · rw [h]
      exact goAppend_frame env _ qc.machines _ x w.heap.length rfl (by simp) hne

/-- Witness for C7: the snapshot of the sample cluster with two machines. -/
theorem C7_machines_snapshot_witness :
    twoMachines.1.machines.WF twoMachines.2.heap ∧
    (twoMachines.1.Machines twoMachines.2).1.len = 2 ∧
    (twoMachines.1.Machines twoMachines.2).1.read (twoMachines.1.Machines twoMachines.2).2.heap =
      twoMachines.1.machines.read twoMachines.2.heap ∧
    twoMachines.1.machines.read
        ((twoMachines.1.Machines twoMachines.2).1.write
          (twoMachines.1.Machines twoMachines.2).2.heap 0 none) =
      twoMachines.1.machines.read twoMachines.2.heap :=
  ⟨by decide,
    (C7_machines_snapshot twoMachines.1 twoMachines.2 (by decide)).1,
    (C7_machines_snapshot twoMachines.1 twoMachines.2 (by decide)).2.1,
    (C7_machines_snapshot twoMachines.1 twoMachines.2 (by decide)).2.2.2.2.1 0 none⟩

/-- C8, as stated, fails: in the sample run the process starts, a remote
session is opened, and neither the disk nor the tap has been closed before
the first event of that session; both are closed only at the end of the run. -/
theorem C8_closed_before_session_fails :
    sampleEnv.commandStart (NewMachine.wStart sampleEnv World.init).trace
      (NewMachine.cmd sampleEnv World.init { fd := 11 }
        { File := { fd := 12 }, Name := "tap0" }) = .ok { pid := 4006 } ∧
    Event.newClient "10.0.0.2" ∈ (freshCluster.NewMachine sampleEnv World.init).2.2.trace ∧
    closedBeforeSession (freshCluster.NewMachine sampleEnv World.init).2.2.trace
      { fd := 11 } { File := { fd := 12 }, Name := "tap0" } = false ∧
    (freshCluster.NewMachine sampleEnv World.init).2.2.trace.drop 7 =
      [.newClient "10.0.0.2", .newSession { id := 1 },
        .sessionOutput { id := 1, Stderr := some .osStderr } NewMachine.probe,
        .sessionClose { id := 1, Stderr := some .osStderr }, .clientClose { id := 1 },
        .tapClose { File := { fd := 12 }, Name := "tap0" }, .fileClose { fd := 11 }] :=
  ⟨by rfl, by decide, by rfl, by rfl⟩

/-- C8, amended: in every run of `NewMachine` in which the process starts, the
disk and the tap stay open during the readiness check and are closed when
`NewMachine` finishes: after `CommandStart` come the events of the remote
session of the check; when the check returns an error or an output other than
the identifier, the kill and the wait of the process follow, and when the
check succeeds nothing follows; last of all come the close of the tap and then
the close of the disk. -/
theorem C8_handles_closed_at_exit (env : Env) (qc : qemuCluster) (w : World) (disk : File)
    (tap : TunTap) (proc : Process)
    (hdisk : (setupDisk env (NewMachine.wDisk w)).1 = .ok disk)
    (htap : env.newTap (NewMachine.wTap env w).trace "br0" = .ok tap)
    (hstart : env.commandStart (NewMachine.wStart env w).trace
      (NewMachine.cmd env w disk tap) = .ok proc) :
    ∃ remote destroy : List Event,
      (NewMachine.sshRun env w disk tap proc).2.trace =
        (NewMachine.wTap env w).trace ++
          [.newTap "br0", .commandStart (NewMachine.cmd env w disk tap)] ++ remote ∧
      (∀ e ∈ remote, e.isRemote = true) ∧
      (destroy = [] ∨ destroy = [.processKill proc,
        .cmdWait { NewMachine.cmd env w disk tap with Process := some proc }]) ∧
      (qc.NewMachine env w).2.2.trace =
        (NewMachine.wTap env w).trace ++
          [.newTap "br0", .commandStart (NewMachine.cmd env w disk tap)] ++ remote ++
          destroy ++ [.tapClose tap, .fileClose disk] ∧
      (∀ out err, (NewMachine.sshRun env w disk tap proc).1 = .returned (out, some err) →
        destroy = [.processKill proc,
          .cmdWait { NewMachine.cmd env w disk tap with Process := some proc }]) ∧
      (∀ out, (NewMachine.sshRun env w disk tap proc).1 = .returned (out, none) →
        out ≠ idCoreos →
        destroy = [.processKill proc,
          .cmdWait { NewMachine.cmd env w disk tap with Process := some proc }]) ∧
      ((NewMachine.sshRun env w disk tap proc).1 = .returned (idCoreos, none) →
        destroy = []) := by
  have hpre : (NewMachine.wSSH env w disk tap).trace =
      (NewMachine.wTap env w).trace ++
        [.newTap "br0", .commandStart (NewMachine.cmd env w disk tap)] := by
    simp [NewMachine.wSSH, NewMachine.wStart, World.emit]
  obtain ⟨remote, hr, hrem⟩ := ssh_world env (NewMachine.started env w disk tap proc)
    NewMachine.probe (NewMachine.wSSH env w disk tap)
  have hs : (NewMachine.sshRun env w disk tap proc).2.trace =
      (NewMachine.wTap env w).trace ++
        [.newTap "br0", .commandStart (NewMachine.cmd env w disk tap)] ++ remote := by
    simp only [NewMachine.sshRun, hr, hpre]
  have hd : (NewMachine.wDestroyed env w disk tap proc).trace =
      (NewMachine.wTap env w).trace ++
        [.newTap "br0", .commandStart (NewMachine.cmd env w disk tap)] ++ remote ++
        [.processKill proc,
          .cmdWait { NewMachine.cmd env w disk tap with Process := some proc }] := by
    simp only [NewMachine.wDestroyed, emit_trace, hs]
    simp
  rcases hssh : (NewMachine.sshRun env w disk tap proc).1 with ⟨out, oerr⟩ | p
  · cases oerr with
    | some err =>
      refine ⟨remote, _, hs, hrem, Or.inr rfl, ?_, fun _ _ _ => rfl, fun _ _ _ => rfl, ?_⟩
      · rw [newMachine_ssh_error env qc w disk tap proc out err hdisk htap hstart hssh]
        simp only [fileClose, tapClose, emit_trace, hd]
        simp
      · intro h
        simp at h
    | none =>
      by_cases hne : out = idCoreos
      · subst hne
        refine ⟨remote, [], hs, hrem, Or.inl rfl, ?_, ?_, ?_, fun _ => rfl⟩
        · rw [newMachine_verified env qc w disk tap proc hdisk htap hstart hssh]
          simp only [fileClose, tapClose, emit_trace, hs]
          simp
        · intro out err h
          simp at h
        · intro out h hne
          simp only [Run.returned.injEq, Prod.mk.injEq, and_true] at h
          exact absurd h.symm hne
      · refine ⟨remote, _, hs, hrem, Or.inr rfl, ?_, fun _ _ _ => rfl, fun _ _ _ => rfl, ?_⟩
        · rw [newMachine_mismatch env qc w disk tap proc out hdisk htap hstart hssh hne]
          simp only [fileClose, tapClose, emit_trace, hd]
          simp
        · intro h
          simp only [Run.returned.injEq, Prod.mk.injEq, and_true] at h
          exact absurd h hne
  · refine ⟨remote, [], hs, hrem, Or.inl rfl, ?_, ?_, ?_, ?_⟩
    · rw [newMachine_ssh_panic env qc w disk tap proc p hdisk htap hstart hssh]
      simp only [fileClose, tapClose, emit_trace, hs]
      simp
    · intro out err h
      simp at h
    · intro out h
      simp at h
    · intro h
      simp at h

/-- Witness for the amended C8: in the sample run the check succeeds and the
closes follow the remote session directly; with the guest of another
distribution the kill and the wait come between the session and the closes. -/
theorem C8_handles_closed_at_exit_witness :
    (∃ remote : List Event, (∀ e ∈ remote, e.isRemote = true) ∧
      (freshCluster.NewMachine sampleEnv World.init).2.2.trace =
        (NewMachine.wTap sampleEnv World.init).trace ++
          [.newTap "br0", .commandStart (NewMachine.cmd sampleEnv World.init { fd := 11 }
            { File := { fd := 12 }, Name := "tap0" })] ++ remote ++
          [] ++ [.tapClose { File := { fd := 12 }, Name := "tap0" },
            .fileClose { fd := 11 }]) ∧
    (∃ remote : List Event, (∀ e ∈ remote, e.isRemote = true) ∧
      (freshCluster.NewMachine otherGuestEnv World.init).2.2.trace =
        (NewMachine.wTap otherGuestEnv World.init).trace ++
          [.newTap "br0", .commandStart (NewMachine.cmd otherGuestEnv World.init { fd := 11 }
            { File := { fd := 12 }, Name := "tap0" })] ++ remote ++
          [.processKill { pid := 4006 },
            .cmdWait { NewMachine.cmd otherGuestEnv World.init { fd := 11 }
              { File := { fd := 12 }, Name := "tap0" } with
              Process := some { pid := 4006 } }] ++
          [.tapClose { File := { fd := 12 }, Name := "tap0" }, .fileClose { fd := 11 }]) :=
  ⟨match C8_handles_closed_at_exit sampleEnv freshCluster World.init { fd := 11 }
      { File := { fd := 12 }, Name := "tap0" } { pid := 4006 } (by rfl) (by rfl) (by rfl) with
    | ⟨remote, _, _, hrem, _, htr, _, _, hok⟩ =>
      ⟨remote, hrem, by rw [htr, hok (by rfl)]⟩,
    match C8_handles_closed_at_exit otherGuestEnv freshCluster World.init { fd := 11 }
      { File := { fd := 12 }, Name := "tap0" } { pid := 4006 } (by rfl) (by rfl) (by rfl) with
    | ⟨remote, _, _, hrem, _, htr, _, hmis, _⟩ =>
      ⟨remote, hrem, by rw [htr, hmis (bytesOf "ID=othernix") (by rfl) (by decide)]⟩⟩

/-- C9, as stated, fails twice.  The output returned is the standard output
only: when the remote command writes a warning to its standard error and the
identifier to its standard output, `SSH` returns the identifier, which is not
the trimmed combined output.  And on a machine without a DHCPv4 lease `SSH`
opens no client and returns nothing: it panics. -/
theorem C9_combined_output_fails :
    (firstMachine.SSH noisyEnv NewMachine.probe World.init).1 =
      .returned (bytesOf "ID=coreos", none) ∧
    TrimSpace (noisyEnv.sessionRun [.newClient "10.0.0.2", .newSession { id := 1 }]
        { id := 1, Stderr := some .osStderr } NewMachine.probe).combined =
      bytesOf "grep: warning\nID=coreos" ∧
    (firstMachine.SSH noisyEnv NewMachine.probe World.init).1 ≠
      .returned (TrimSpace (noisyEnv.sessionRun
        [.newClient "10.0.0.2", .newSession { id := 1 }]
        { id := 1, Stderr := some .osStderr } NewMachine.probe).combined, none) ∧
    leaselessMachine.SSH sampleEnv NewMachine.probe World.init =
      (.panicked (.indexOutOfRange 0 0), World.init) :=
  ⟨by rfl, by rfl, by decide, by rfl⟩

/-- C9, amended: on a machine that has an address (a DHCPv4 lease), `SSH`
opens a client to that address and a session on it, runs the command and
returns the standard output of the command with all leading and trailing white
space removed, together with the error of the command; the standard error of
the command is not part of the result.  It returns a non-nil error exactly
when the client cannot be created, the session cannot be created or the command
fails; in the first two cases the output is empty and the error is the one of
the failing call.  Client and session are created anew by every call and
closed before it returns. -/
theorem C9_ssh (env : Env) (qm : qemuMachine) (cmd : String) (w : World) (ip : String)
    (hip : qm.IP env = .returned ip) :
    (∀ err, env.newClient w.trace ip = .error err →
      qm.SSH env cmd w =
        (.returned ([], some err), { w with trace := w.trace ++ [.newClient ip] })) ∧
    (∀ client err, env.newClient w.trace ip = .ok client →
      env.newSession (w.trace ++ [.newClient ip]) client = .error err →
      qm.SSH env cmd w =
        (.returned ([], some err),
          { w with trace := w.trace ++
              [.newClient ip, .newSession client, .clientClose client] })) ∧
    (∀ client session, env.newClient w.trace ip = .ok client →
      env.newSession (w.trace ++ [.newClient ip]) client = .ok session →
      qm.SSH env cmd w =
        (.returned
          (TrimSpace (env.sessionRun
              (w.trace ++ [.newClient ip, .newSession client])
              { session with Stderr := some .osStderr } cmd).stdout,
            (env.sessionRun
              (w.trace ++ [.newClient ip, .newSession client])
              { session with Stderr := some .osStderr } cmd).err),
          { w with trace := w.trace ++
              [.newClient ip, .newSession client,
                .sessionOutput { session with Stderr := some .osStderr } cmd,
                .sessionClose { session with Stderr := some .osStderr },
                .clientClose client] })) ∧
    (∀ client session, env.newClient w.trace ip = .ok client →
      env.newSession (w.trace ++ [.newClient ip]) client = .ok session →
      ∃ out err pre suf, (qm.SSH env cmd w).1 = .returned (out, err) ∧
        (env.sessionRun (w.trace ++ [.newClient ip, .newSession client])
          { session with Stderr := some .osStderr } cmd).stdout = pre ++ out ++ suf ∧
        WhiteSpace pre ∧ WhiteSpace suf ∧
        hasLeadingSpace out = false ∧ hasTrailingSpace out = false) ∧
    (∃ out err, (qm.SSH env cmd w).1 = .returned (out, err) ∧
      (err ≠ none ↔
        ((∃ e, env.newClient w.trace ip = .error e) ∨
          (∃ client e, env.newClient w.trace ip = .ok client ∧
            env.newSession (w.trace ++ [.newClient ip]) client = .error e) ∨
          (∃ client session e, env.newClient w.trace ip = .ok client ∧
            env.newSession (w.trace ++ [.newClient ip]) client = .ok session ∧
            (env.sessionRun (w.trace ++ [.newClient ip, .newSession client])
              { session with Stderr := some .osStderr } cmd).err = some e)))) := by
  have e1 : ∀ err, env.newClient w.trace ip = .error err →
      qm.SSH env cmd w =
        (.returned ([], some err), { w with trace := w.trace ++ [.newClient ip] }) := by
    intro err h
    unfold qemuMachine.SSH
    simp [hip, newClient, h, World.emit]
  have e2 : ∀ client err, env.newClient w.trace ip = .ok client →
      env.newSession (w.trace ++ [.newClient ip]) client = .error err →
      qm.SSH env cmd w =
        (.returned ([], some err),
          { w with trace := w.trace ++
              [.newClient ip, .newSession client, .clientClose client] }) := by
    intro client err h1 h2
    unfold qemuMachine.SSH
    simp [hip, newClient, h1, newSession, h2, clientClose, World.emit]
  have e3 : ∀ client session, env.newClient w.trace ip = .ok client →
      env.newSession (w.trace ++ [.newClient ip]) client = .ok session →
      qm.SSH env cmd w =
        (.returned
          (TrimSpace (env.sessionRun
              (w.trace ++ [.newClient ip, .newSession client])
              { session with Stderr := some .osStderr } cmd).stdout,
            (env.sessionRun
              (w.trace ++ [.newClient ip, .newSession client])
              { session with Stderr := some .osStderr } cmd).err),
          { w with trace := w.trace ++
              [.newClient ip, .newSession client,
                .sessionOutput { session with Stderr := some .osStderr } cmd,
                .sessionClose { session with Stderr := some .osStderr },
                .clientClose client] }) := by
    intro client session h1 h2
    unfold qemuMachine.SSH
    simp [hip, newClient, h1, newSession, h2, sessionOutput, sessionClose, clientClose,
      World.emit]
  refine ⟨e1, e2, e3, ?_, ?_⟩
  · intro client session h1 h2
    obtain ⟨pre, suf, hd, hpre, hsuf, hl, ht⟩ := TrimSpace_spec
      (env.sessionRun (w.trace ++ [.newClient ip, .newSession client])
        { session with Stderr := some .osStderr } cmd).stdout
    exact ⟨_, _, pre, suf, by rw [e3 client session h1 h2], hd, hpre, hsuf, hl, ht⟩
  · cases h1 : env.newClient w.trace ip with
    | error e =>
      refine ⟨[], some e, by rw [e1 e h1], ?_⟩
      simp
    | ok client =>
      cases h2 : env.newSession (w.trace ++ [.newClient ip]) client with
      | error e =>
        refine ⟨[], some e, by rw [e2 client e h1 h2], ?_⟩
        simp [h2]
      | ok session =>
        refine ⟨_, _, by rw [e3 client session h1 h2], ?_⟩
        simp [h2, Option.ne_none_iff_exists']

/-- Witness for the amended C9: the probe on the first machine of the sample
cluster returns the identifier without the trailing newline, also when the
command writes to its standard error; an unreachable guest gives an empty
output and the error of the client. -/
theorem C9_ssh_witness :
    firstMachine.IP sampleEnv = .returned "10.0.0.2" ∧
    (firstMachine.SSH sampleEnv NewMachine.probe World.init).1 =
      .returned (idCoreos, none) ∧
    (firstMachine.SSH noisyEnv NewMachine.probe World.init).1 =
      .returned (idCoreos, none) ∧
    (firstMachine.SSH unreachableEnv NewMachine.probe World.init).1 =
      .returned ([], some (.ext 111)) :=
  ⟨by rfl,
    by rw [(C9_ssh sampleEnv firstMachine NewMachine.probe World.init "10.0.0.2"
      (by rfl)).2.2.1 { id := 1 } { id := 1, Stderr := none } (by rfl) (by rfl)]; rfl,
    by rw [(C9_ssh noisyEnv firstMachine NewMachine.probe World.init "10.0.0.2"
      (by rfl)).2.2.1 { id := 1 } { id := 1, Stderr := none } (by rfl) (by rfl)]; rfl,
    by rw [(C9_ssh unreachableEnv firstMachine NewMachine.probe World.init "10.0.0.2"
      (by rfl)).1 (.ext 111) (by rfl)]⟩

/-- C10: `IP` returns the text of the address of the first DHCPv4 lease when
there is one.  When there is none, `IP` does not return: the index 0 is out
of range; then `SSH` does not return either, and `NewMachine`, once the
process has been started, ends in the same panic instead of returning a
machine or an error. -/
theorem C10_ip (env : Env) (qm : qemuMachine) :
    (∀ lease rest, qm.netif.DHCPv4 = lease :: rest →
      qm.IP env = .returned (env.ipString lease.IP)) ∧
    (qm.netif.DHCPv4 = [] →
      qm.IP env = .panicked (.indexOutOfRange 0 0) ∧
      (∀ cmd w, qm.SSH env cmd w = (.panicked (.indexOutOfRange 0 0), w))) ∧
    (∀ qc w disk tap proc, (env.getInterface w.trace "br0").DHCPv4 = [] →
      (setupDisk env (NewMachine.wDisk w)).1 = .ok disk →
      env.newTap (NewMachine.wTap env w).trace "br0" = .ok tap →
      env.commandStart (NewMachine.wStart env w).trace (NewMachine.cmd env w disk tap)
        = .ok proc →
      (qemuCluster.NewMachine env qc w).1 = .panicked (.indexOutOfRange 0 0)) := by
  have hpanic : ∀ m : qemuMachine, m.netif.DHCPv4 = [] →
      m.IP env = .panicked (.indexOutOfRange 0 0) := by
    intro m h
    unfold qemuMachine.IP
    simp [h]
  have hssh : ∀ (m : qemuMachine) cmd w, m.netif.DHCPv4 = [] →
      m.SSH env cmd w = (.panicked (.indexOutOfRange 0 0), w) := by
    intro m cmd w h
    unfold qemuMachine.SSH
    simp [hpanic m h]
  refine ⟨?_, fun h => ⟨hpanic qm h, fun cmd w => hssh qm cmd w h⟩, ?_⟩
  · intro lease rest h
    unfold qemuMachine.IP
    simp [h]
  · intro qc w disk tap proc hl hdisk htap hstart
    rw [newMachine_ssh_panic env qc w disk tap proc (.indexOutOfRange 0 0) hdisk htap hstart]
    unfold NewMachine.sshRun
    rw [hssh _ _ _ (by simpa [NewMachine.started, NewMachine.qm] using hl)]

/-- Witness for C10: the first machine has a lease; with an interface without
lease the run of `NewMachine` panics after the process was started. -/
theorem C10_ip_witness :
    firstMachine.IP sampleEnv = .returned "10.0.0.2" ∧
    (freshCluster.NewMachine noLeaseEnv World.init).1 = .panicked (.indexOutOfRange 0 0) :=
  ⟨(C10_ip sampleEnv firstMachine).1 _ _ (by rfl),
    (C10_ip noLeaseEnv firstMachine).2.2 freshCluster World.init { fd := 11 }
      { File := { fd := 12 }, Name := "tap0" } { pid := 4006 } (by rfl) (by rfl) (by rfl)
      (by rfl)⟩

/-- The run that panics for want of a lease closes the tap and the disk but
neither kills nor waits for the process it started. -/
theorem newMachine_panic_trace (env : Env) (qc : qemuCluster) (w : World) (disk : File)
    (tap : TunTap) (proc : Process)
    (hlease : (env.getInterface w.trace "br0").DHCPv4 = [])
    (hdisk : (setupDisk env (NewMachine.wDisk w)).1 = .ok disk)
    (htap : env.newTap (NewMachine.wTap env w).trace "br0" = .ok tap)
    (hstart : env.commandStart (NewMachine.wStart env w).trace
      (NewMachine.cmd env w disk tap) = .ok proc) :
    (qc.NewMachine env w).2.2.trace =
      (NewMachine.wTap env w).trace ++
        [.newTap "br0", .commandStart (NewMachine.cmd env w disk tap),
          .tapClose tap, .fileClose disk] := by
  have hssh : NewMachine.sshRun env w disk tap proc =
      (.panicked (.indexOutOfRange 0 0), NewMachine.wSSH env w disk tap) := by
    unfold NewMachine.sshRun qemuMachine.SSH qemuMachine.IP
    have : (NewMachine.started env w disk tap proc).netif.DHCPv4 = [] := hlease
    simp [this]
  rw [newMachine_ssh_panic env qc w disk tap proc (.indexOutOfRange 0 0) hdisk htap hstart
    (by rw [hssh]), hssh]
  simp [fileClose, tapClose, NewMachine.wSSH, NewMachine.wStart, World.emit]

end Qemu
